import Mathlib

/-!
Verification of the OpenChoreo CRD-rendering core: a shallow embedding of the
context builder (`internal/crd-renderer/component-pipeline/context`), the patch
engine (`internal/crd-renderer/patch`) and the CEL helper functions, together
with theorems settling the specification claims about them.

Go's `map[string]any` / `[]any` value trees are embedded as the inductive `Val`
below; maps become association lists with unique keys (Go map semantics:
assignment replaces the value of a present key, otherwise adds the key), and
in-place mutation becomes explicit value passing.
-/

namespace Choreo

/-- A plain value tree: the `any` values flowing through the renderer
(scalars, sequences, string-keyed mappings), as produced by JSON/YAML
decoding into `map[string]any`. -/
inductive Val where
  | null : Val
  | bool : Bool → Val
  | int : Int → Val
  | str : String → Val
  | arr : List Val → Val
  | obj : List (String × Val) → Val
deriving Repr

/-- Go `map[string]any` restricted to the value-tree world. -/
abbrev Obj := List (String × Val)

/-- The CEL-input context map (`map[string]any` in Go). -/
abbrev Ctx := List (String × Val)

mutual

/-- Structural equality test for `Val` (mirrors Go `==`/`cmp.Diff` on decoded
JSON trees). -/
def Val.beq : Val → Val → Bool
  | .null, .null => true
  | .bool a, .bool b => a == b
  | .int a, .int b => a == b
  | .str a, .str b => a == b
  | .arr a, .arr b => Val.beqList a b
  | .obj a, .obj b => Val.beqFields a b
  | _, _ => false

def Val.beqList : List Val → List Val → Bool
  | [], [] => true
  | x :: xs, y :: ys => Val.beq x y && Val.beqList xs ys
  | _, _ => false

def Val.beqFields : List (String × Val) → List (String × Val) → Bool
  | [], [] => true
  | (k, v) :: xs, (l, w) :: ys => k == l && Val.beq v w && Val.beqFields xs ys
  | _, _ => false

end

mutual

theorem Val.beq_iff_eq : ∀ a b : Val, Val.beq a b = true ↔ a = b
  | .null, .null => by simp [Val.beq]
  | .bool _, .bool _ => by simp [Val.beq]
  | .int _, .int _ => by simp [Val.beq]
  | .str _, .str _ => by simp [Val.beq]
  | .arr x, .arr y => by simp [Val.beq, Val.beqList_iff_eq x y]
  | .obj x, .obj y => by simp [Val.beq, Val.beqFields_iff_eq x y]
  | .null, .bool _ | .null, .int _ | .null, .str _ | .null, .arr _ | .null, .obj _
  | .bool _, .null | .bool _, .int _ | .bool _, .str _ | .bool _, .arr _ | .bool _, .obj _
  | .int _, .null | .int _, .bool _ | .int _, .str _ | .int _, .arr _ | .int _, .obj _
  | .str _, .null | .str _, .bool _ | .str _, .int _ | .str _, .arr _ | .str _, .obj _
  | .arr _, .null | .arr _, .bool _ | .arr _, .int _ | .arr _, .str _ | .arr _, .obj _
  | .obj _, .null | .obj _, .bool _ | .obj _, .int _ | .obj _, .str _ | .obj _, .arr _ => by
    simp [Val.beq]

theorem Val.beqList_iff_eq : ∀ xs ys : List Val, Val.beqList xs ys = true ↔ xs = ys
  | [], [] => by simp [Val.beqList]
  | x :: xs, y :: ys => by simp [Val.beqList, Val.beq_iff_eq x y, Val.beqList_iff_eq xs ys]
  | [], _ :: _ => by simp [Val.beqList]
  | _ :: _, [] => by simp [Val.beqList]

theorem Val.beqFields_iff_eq : ∀ xs ys : List (String × Val), Val.beqFields xs ys = true ↔ xs = ys
  | [], [] => by simp [Val.beqFields]
  | (k, v) :: xs, (l, w) :: ys => by
    simp [Val.beqFields, Val.beq_iff_eq v w, Val.beqFields_iff_eq xs ys, and_assoc]
  | [], _ :: _ => by simp [Val.beqFields]
  | _ :: _, [] => by simp [Val.beqFields]

end

instance : DecidableEq Val := fun a b =>
  decidable_of_iff (Val.beq a b = true) (Val.beq_iff_eq a b)

/-- Go map read `m[k]` on the association-list embedding: the unique (first)
binding of `k`, if any. -/
def lookupField : Obj → String → Option Val
  | [], _ => none
  | (k, v) :: rest, key => if k = key then some v else lookupField rest key

/-- Go map write `m[k] = v`: replace the binding of `k` in place if present,
otherwise add it. -/
def setField : Obj → String → Val → Obj
  | [], key, v => [(key, v)]
  | (k, w) :: rest, key, v =>
    if k = key then (k, v) :: rest else (k, w) :: setField rest key v

/-- Go `delete(m, k)`: drop the binding of `k`, if any. -/
def removeField : Obj → String → Obj
  | [], _ => []
  | (k, w) :: rest, key => if k = key then rest else (k, w) :: removeField rest key

theorem lookupField_setField_self (l : Obj) (k : String) (v : Val) :
    lookupField (setField l k v) k = some v := by
  induction l with
  | nil => simp [setField, lookupField]
  | cons hd tl ih =>
    obtain ⟨k', w⟩ := hd
    by_cases h : k' = k <;> simp [setField, lookupField, h, ih]

theorem lookupField_setField_ne (l : Obj) (k k' : String) (v : Val) (h : k ≠ k') :
    lookupField (setField l k v) k' = lookupField l k' := by
  induction l with
  | nil => simp [setField, lookupField, h]
  | cons hd tl ih =>
    obtain ⟨k'', w⟩ := hd
    by_cases h1 : k'' = k
    · subst h1; simp [setField, lookupField, h, Ne.symm h]
    · by_cases h2 : k'' = k' <;> simp [setField, lookupField, h1, h2, Ne.symm h, ih]

theorem setField_setField (l : Obj) (k : String) (v w : Val) :
    setField (setField l k v) k w = setField l k w := by
  induction l with
  | nil => simp [setField]
  | cons hd tl ih =>
    obtain ⟨k', u⟩ := hd
    by_cases h : k' = k <;> simp [setField, h, ih]

theorem setField_lookup_eq (l : Obj) (k : String) (v : Val)
    (h : lookupField l k = some v) : setField l k v = l := by
  induction l with
  | nil => simp [lookupField] at h
  | cons hd tl ih =>
    obtain ⟨k', u⟩ := hd
    by_cases hk : k' = k
    · subst hk
      simp [lookupField] at h
      simp [setField, h]
    · simp [lookupField, hk] at h
      simp [setField, hk, ih h]

theorem removeField_setField (l : Obj) (k : String) (v : Val) :
    removeField (setField l k v) k = removeField l k := by
  induction l with
  | nil => simp [setField, removeField]
  | cons hd tl ih =>
    obtain ⟨k', u⟩ := hd
    by_cases h : k' = k <;> simp [setField, removeField, h, ih]

theorem removeField_absent (l : Obj) (k : String) (h : lookupField l k = none) :
    removeField l k = l := by
  induction l with
  | nil => simp [removeField]
  | cons hd tl ih =>
    obtain ⟨k', u⟩ := hd
    by_cases hk : k' = k
    · subst hk; simp [lookupField] at h
    · simp [lookupField, hk] at h
      simp [removeField, hk, ih h]

theorem setField_absent (l : Obj) (k : String) (v : Val) (h : lookupField l k = none) :
    setField l k v = l ++ [(k, v)] := by
  induction l with
  | nil => simp [setField]
  | cons hd tl ih =>
    obtain ⟨k', u⟩ := hd
    by_cases hk : k' = k
    · subst hk; simp [lookupField] at h
    · simp [lookupField, hk] at h
      simp [setField, hk, ih h]

theorem lookupField_append (l1 l2 : Obj) (k : String) :
    lookupField (l1 ++ l2) k =
      (lookupField l1 k).orElse (fun _ => lookupField l2 k) := by
  induction l1 with
  | nil => simp [lookupField]
  | cons hd tl ih =>
    obtain ⟨k', u⟩ := hd
    by_cases hk : k' = k <;> simp [lookupField, hk, ih]

/-- The save/bind/restore pattern the patch engine uses on the shared context
map: restore the binding of `k` to what `prev` recorded before the bind
(`inputs[k] = previous` when it existed, `delete(inputs, k)` otherwise). -/
def restoreBinding (m : Ctx) (k : String) (prev : Option Val) : Ctx :=
  match prev with
  | some p => setField m k p
  | none => removeField m k

theorem restoreBinding_setField (ctx : Ctx) (k : String) (v : Val) :
    restoreBinding (setField ctx k v) k (lookupField ctx k) = ctx := by
  cases h : lookupField ctx k with
  | none =>
    show removeField (setField ctx k v) k = ctx
    rw [removeField_setField, removeField_absent ctx k h]
  | some p =>
    show setField (setField ctx k v) k p = ctx
    rw [setField_setField, setField_lookup_eq ctx k p h]

theorem restoreBinding_self (ctx : Ctx) (k : String) :
    restoreBinding ctx k (lookupField ctx k) = ctx := by
  cases h : lookupField ctx k with
  | none => exact removeField_absent ctx k h
  | some p => exact setField_lookup_eq ctx k p h

theorem restoreBinding_setField_collapse (ctx : Ctx) (k : String) (v : Val)
    (prev : Option Val) :
    restoreBinding (setField ctx k v) k prev = restoreBinding ctx k prev := by
  cases prev with
  | some p => exact setField_setField ctx k v p
  | none => exact removeField_setField ctx k v

/-! ### deepCopyValue (context builder, part `context/builder.go`) -/

mutual

/-- Embeds `deepCopyValue` from the context builder: deep copy of a value
(maps and slices rebuilt recursively, primitives returned as-is). -/
def deepCopyValue : Val → Val
  | .obj fields => .obj (deepCopyFields fields)
  | .arr xs => .arr (deepCopyList xs)
  | v => v

def deepCopyFields : List (String × Val) → List (String × Val)
  | [] => []
  | (k, v) :: rest => (k, deepCopyValue v) :: deepCopyFields rest

def deepCopyList : List Val → List Val
  | [] => []
  | v :: rest => deepCopyValue v :: deepCopyList rest

end

mutual

theorem deepCopyValue_id : ∀ v : Val, deepCopyValue v = v
  | .null => rfl
  | .bool _ => rfl
  | .int _ => rfl
  | .str _ => rfl
  | .arr xs => by simp [deepCopyValue, deepCopyList_id xs]
  | .obj fields => by simp [deepCopyValue, deepCopyFields_id fields]

theorem deepCopyFields_id : ∀ fields : List (String × Val), deepCopyFields fields = fields
  | [] => rfl
  | (k, v) :: rest => by
    simp [deepCopyFields, deepCopyValue_id v, deepCopyFields_id rest]

theorem deepCopyList_id : ∀ xs : List Val, deepCopyList xs = xs
  | [] => rfl
  | v :: rest => by simp [deepCopyList, deepCopyValue_id v, deepCopyList_id rest]

end

/-! ### deepMerge (context builder, claim C7) -/

mutual

/-- Embeds `deepMerge` from the context builder: copy all base values, then
merge override values on top — recursing when both sides hold mappings,
otherwise the override value (deep-copied) takes precedence. -/
def deepMerge (base override : Obj) : Obj :=
  deepMergeLoop (deepCopyFields base) override
termination_by (sizeOf override, 1)

/-- The `for k, v := range override` loop body of `deepMerge`, threading the
`result` map: each override entry is written with `mergeVal`. -/
def deepMergeLoop (result : Obj) : Obj → Obj
  | [] => result
  | (k, v) :: rest =>
    deepMergeLoop (setField result k (mergeVal (lookupField result k) v)) rest
termination_by o => (sizeOf o, 0)

/-- The value `deepMerge` stores for an override entry `v` when the result map
currently holds `existing` at the same key: both mappings recurse, anything
else is the override value deep-copied. -/
def mergeVal (existing : Option Val) (v : Val) : Val :=
  match existing, v with
  | some (.obj existingMap), .obj overrideMap => .obj (deepMerge existingMap overrideMap)
  | _, _ => deepCopyValue v
termination_by (sizeOf v, 0)

end

/-- Whether a binding for `k` is present (`_, ok := m[k]` in Go). -/
def containsKey (l : Obj) (k : String) : Bool := (lookupField l k).isSome

/-- Go maps never repeat a key; association lists embedding them satisfy this. -/
def nodupKeys : Obj → Bool
  | [] => true
  | (k, _) :: rest => !containsKey rest k && nodupKeys rest

/-- Key sets of two embedded maps are disjoint. -/
def keysDisjoint (x y : Obj) : Bool := x.all fun kv => !containsKey y kv.1

theorem lookupField_eq_none_iff (l : Obj) (k : String) :
    lookupField l k = none ↔ ∀ kv ∈ l, kv.1 ≠ k := by
  induction l with
  | nil => simp [lookupField]
  | cons hd tl ih =>
    obtain ⟨k', v⟩ := hd
    by_cases h : k' = k <;> simp [lookupField, h, ih]

theorem keysDisjoint_lookup_right (x y : Obj) (h : keysDisjoint x y = true) :
    ∀ kv ∈ y, lookupField x kv.1 = none := by
  intro kv hm
  rw [lookupField_eq_none_iff]
  intro kv' hm' hEq
  have hx := (List.all_eq_true.mp h) kv' hm'
  simp [containsKey] at hx
  rw [hEq, lookupField_eq_none_iff] at hx
  exact hx kv hm rfl

theorem keysDisjoint_lookup_left (x y : Obj) (h : keysDisjoint x y = true) :
    ∀ kv ∈ x, lookupField y kv.1 = none := by
  intro kv hm
  have hx := (List.all_eq_true.mp h) kv hm
  cases hy : lookupField y kv.1 with
  | none => rfl
  | some v => simp [containsKey, hy] at hx

theorem deepMergeLoop_lookup :
    ∀ (o acc : Obj) (k : String), nodupKeys o = true →
    lookupField (deepMergeLoop acc o) k =
      match lookupField o k with
      | none => lookupField acc k
      | some v => some (mergeVal (lookupField acc k) v) := by
  intro o
  induction o with
  | nil =>
    intro acc k _
    simp [deepMergeLoop, lookupField]
  | cons hd rest ih =>
    obtain ⟨k', v'⟩ := hd
    intro acc k hn
    simp only [nodupKeys, Bool.and_eq_true, Bool.not_eq_true'] at hn
    obtain ⟨h1, h2⟩ := hn
    rw [show deepMergeLoop acc ((k', v') :: rest) =
          deepMergeLoop (setField acc k' (mergeVal (lookupField acc k') v')) rest from by
        simp [deepMergeLoop]]
    rw [ih _ k h2]
    by_cases hk : k' = k
    · subst hk
      have hrest : lookupField rest k' = none := by
        cases hr : lookupField rest k' with
        | none => rfl
        | some w => simp [containsKey, hr] at h1
      rw [hrest]
      simp [lookupField, lookupField_setField_self]
    · rw [lookupField_setField_ne _ _ _ _ hk]
      simp [lookupField, hk]

theorem deepMerge_lookup (base override : Obj) (k : String)
    (h : nodupKeys override = true) :
    lookupField (deepMerge base override) k =
      match lookupField override k with
      | none => lookupField base k
      | some v => some (mergeVal (lookupField base k) v) := by
  rw [show deepMerge base override = deepMergeLoop (deepCopyFields base) override from by
    simp [deepMerge]]
  rw [deepMergeLoop_lookup override (deepCopyFields base) k h, deepCopyFields_id]

/-- Whether a value is a mapping (`map[string]any` at runtime in Go). -/
def isMapVal : Val → Bool
  | .obj _ => true
  | _ => false

theorem deepMerge_override_wins (base override : Obj) (k : String)
    (bv ov : Val) (hn : nodupKeys override = true)
    (hb : lookupField base k = some bv) (ho : lookupField override k = some ov)
    (hflat : isMapVal bv = false ∨ isMapVal ov = false) :
    lookupField (deepMerge base override) k = some ov := by
  rw [deepMerge_lookup base override k hn, ho, hb]
  show some (mergeVal (some bv) ov) = some ov
  rcases hflat with hf | hf
  · cases bv <;> simp [isMapVal] at hf <;> cases ov <;>
      simp [mergeVal, deepCopyValue_id]
  · cases ov <;> simp [isMapVal] at hf <;> cases bv <;>
      simp [mergeVal, deepCopyValue_id]

theorem deepMerge_recurses (base override : Obj) (k : String)
    (bm om : Obj) (hn : nodupKeys override = true)
    (hb : lookupField base k = some (.obj bm))
    (ho : lookupField override k = some (.obj om)) :
    lookupField (deepMerge base override) k = some (.obj (deepMerge bm om)) := by
  rw [deepMerge_lookup base override k hn, ho, hb]
  simp [mergeVal]

theorem deepMerge_absent (base override : Obj) (k : String)
    (hn : nodupKeys override = true) (ho : lookupField override k = none) :
    lookupField (deepMerge base override) k = lookupField base k := by
  rw [deepMerge_lookup base override k hn, ho]

theorem deepMergeLoop_append :
    ∀ (o acc : Obj), nodupKeys o = true → (∀ kv ∈ o, lookupField acc kv.1 = none) →
    deepMergeLoop acc o = acc ++ o := by
  intro o
  induction o with
  | nil => intro acc _ _; simp [deepMergeLoop]
  | cons hd rest ih =>
    obtain ⟨k', v'⟩ := hd
    intro acc hn habs
    simp only [nodupKeys, Bool.and_eq_true, Bool.not_eq_true'] at hn
    obtain ⟨h1, h2⟩ := hn
    have hacc : lookupField acc k' = none := habs (k', v') (by simp)
    rw [show deepMergeLoop acc ((k', v') :: rest) =
          deepMergeLoop (setField acc k' (mergeVal (lookupField acc k') v')) rest from by
        simp [deepMergeLoop]]
    rw [hacc]
    have hmv : mergeVal none v' = v' := by
      cases v' <;> simp [mergeVal, deepCopyValue_id]
    rw [hmv, setField_absent acc k' v' hacc]
    rw [ih (acc ++ [(k', v')]) h2 ?_]
    · simp
    · intro kv hm
      rw [lookupField_append]
      rw [habs kv (by simp [hm])]
      have hne : kv.1 ≠ k' := by
        intro hEq
        cases hr : lookupField rest k' with
        | some w => simp [containsKey, hr] at h1
        | none => exact (lookupField_eq_none_iff rest k').mp hr kv hm hEq
      simp [lookupField, Ne.symm hne]

theorem deepMerge_disjoint_append (base override : Obj)
    (hn : nodupKeys override = true)
    (habs : ∀ kv ∈ override, lookupField base kv.1 = none) :
    deepMerge base override = base ++ override := by
  rw [show deepMerge base override = deepMergeLoop (deepCopyFields base) override from by
    simp [deepMerge]]
  rw [deepCopyFields_id]
  exact deepMergeLoop_append override base hn habs

theorem nodupKeys_append (b c : Obj) (hb : nodupKeys b = true) (hc : nodupKeys c = true)
    (habs : ∀ kv ∈ b, lookupField c kv.1 = none) : nodupKeys (b ++ c) = true := by
  induction b with
  | nil => simpa using hc
  | cons hd rest ih =>
    obtain ⟨k', v'⟩ := hd
    simp only [nodupKeys, Bool.and_eq_true, Bool.not_eq_true'] at hb
    obtain ⟨h1, h2⟩ := hb
    have hcnone : lookupField c k' = none := habs (k', v') (by simp)
    have hrnone : lookupField rest k' = none := by
      cases hr : lookupField rest k' with
      | none => rfl
      | some w => simp [containsKey, hr] at h1
    simp only [List.cons_append, nodupKeys, Bool.and_eq_true, Bool.not_eq_true']
    constructor
    · simp [containsKey, lookupField_append, hrnone, hcnone]
    · exact ih h2 (fun kv hm => habs kv (by simp [hm]))

/-- C7: `deepMerge` is right-biased at conflicts — when a key holds values in
both arguments and they are not both mappings, the override's value replaces
the base's value; it recurses exactly when both values are mappings (so
sequences and scalars are replaced, never merged); and it is associative for
maps with pairwise-disjoint key sets. -/
theorem claimC7 :
    (∀ (base override : Obj) (k : String) (bv ov : Val),
      nodupKeys override = true →
      lookupField base k = some bv → lookupField override k = some ov →
      (isMapVal bv = false ∨ isMapVal ov = false) →
      lookupField (deepMerge base override) k = some ov)
    ∧ (∀ (base override : Obj) (k : String) (bm om : Obj),
      nodupKeys override = true →
      lookupField base k = some (.obj bm) → lookupField override k = some (.obj om) →
      lookupField (deepMerge base override) k = some (.obj (deepMerge bm om)))
    ∧ (∀ a b c : Obj,
      nodupKeys a = true → nodupKeys b = true → nodupKeys c = true →
      keysDisjoint a b = true → keysDisjoint b c = true → keysDisjoint a c = true →
      deepMerge (deepMerge a b) c = deepMerge a (deepMerge b c)) := by
  refine ⟨deepMerge_override_wins, deepMerge_recurses, ?_⟩
  intro a b c _ hb hc hab hbc hac
  have hAB : deepMerge a b = a ++ b :=
    deepMerge_disjoint_append a b hb (keysDisjoint_lookup_right a b hab)
  have hBC : deepMerge b c = b ++ c :=
    deepMerge_disjoint_append b c hc (keysDisjoint_lookup_right b c hbc)
  rw [hAB, hBC]
  rw [deepMerge_disjoint_append (a ++ b) c hc ?habsL]
  case habsL =>
    intro kv hm
    rw [lookupField_append]
    rw [keysDisjoint_lookup_right a c hac kv hm]
    rw [keysDisjoint_lookup_right b c hbc kv hm]
    rfl
  rw [deepMerge_disjoint_append a (b ++ c) ?hnBC ?habsR]
  case hnBC => exact nodupKeys_append b c hb hc (keysDisjoint_lookup_left b c hbc)
  case habsR =>
    intro kv hm
    rcases List.mem_append.mp hm with hmb | hmc
    · exact keysDisjoint_lookup_right a b hab kv hmb
    · exact keysDisjoint_lookup_right a c hac kv hmc
  rw [List.append_assoc]

/-- Witness for C7 at concrete inputs: an override scalar replaces a base
scalar at the same key, and a three-way disjoint merge is associative. -/
theorem claimC7_witness :
    lookupField (deepMerge [("k", Val.int 1)] [("k", Val.str "s")]) "k"
      = some (Val.str "s")
    ∧ deepMerge (deepMerge [("x", Val.int 1)] [("y", Val.int 2)]) [("z", Val.int 3)]
      = deepMerge [("x", Val.int 1)] (deepMerge [("y", Val.int 2)] [("z", Val.int 3)]) :=
  ⟨claimC7.1 [("k", Val.int 1)] [("k", Val.str "s")] "k" (Val.int 1) (Val.str "s")
      (by decide) (by decide) (by decide) (Or.inl (by decide)),
    claimC7.2.2 [("x", Val.int 1)] [("y", Val.int 2)] [("z", Val.int 3)]
      (by decide) (by decide) (by decide) (by decide) (by decide) (by decide)⟩

/-! ### oc_hash (CEL custom functions, claim C9) -/

/-- The 32-bit FNV-1a digest over a byte sequence, as computed by Go's
`hash/fnv` `New32a` (offset basis 2166136261, prime 16777619, each step
`h = (h XOR b) * prime` truncated to 32 bits), which `oc_hash` and
`generateHashString` call. -/
def fnv1a32 (bytes : List Nat) : Nat :=
  bytes.foldl (fun h b => ((h ^^^ b) * 16777619) % 4294967296) 2166136261

/-- One lowercase hexadecimal digit character (0-9, a-f). -/
def hexDigitChar (d : Nat) : Char :=
  if d < 10 then Char.ofNat (48 + d) else Char.ofNat (87 + d)

/-- Go's `fmt.Sprintf` with format `%08x` applied to a `uint32` (the type of
`h.Sum32()`): the eight lowercase hexadecimal digits of the value, most
significant nibble first, zero-padded. -/
def hex8 (n : Nat) : String :=
  String.mk ([n / 268435456, n / 16777216, n / 1048576, n / 65536,
    n / 4096, n / 256, n / 16, n].map fun m => hexDigitChar (m % 16))

/-- The UTF-8 bytes of a string (`[]byte(input)` in Go), as natural numbers. -/
def utf8Bytes (s : String) : List Nat :=
  (s.data.flatMap String.utf8EncodeChar).map UInt8.toNat

/-- Embeds the `oc_hash` CEL function: the `%08x` rendering of the 32-bit
FNV-1a digest of the argument's UTF-8 bytes (`generateHashString` computes
the identical string). -/
def oc_hash (s : String) : String :=
  hex8 (fnv1a32 (utf8Bytes s))

theorem fnv1a32_lt (bytes : List Nat) : fnv1a32 bytes < 4294967296 := by
  unfold fnv1a32
  have step : ∀ (l : List Nat) (h : Nat), h < 4294967296 →
      l.foldl (fun h b => ((h ^^^ b) * 16777619) % 4294967296) h < 4294967296 := by
    intro l
    induction l with
    | nil => intro h hh; simpa using hh
    | cons b rest ih =>
      intro h _
      exact ih _ (Nat.mod_lt _ (by norm_num))
  exact step bytes 2166136261 (by norm_num)

theorem hex8_length (n : Nat) : (hex8 n).length = 8 := by
  simp [hex8, String.length]

theorem hexDigitChar_lower (d : Nat) (hd : d < 16) :
    (hexDigitChar d).isDigit = true
      ∨ (97 ≤ (hexDigitChar d).toNat ∧ (hexDigitChar d).toNat ≤ 102) := by
  interval_cases d <;> decide

theorem hex8_chars (n : Nat) :
    ∀ c ∈ (hex8 n).data,
      c.isDigit = true ∨ (97 ≤ c.toNat ∧ c.toNat ≤ 102) := by
  intro c hc
  simp only [hex8, String.mk] at hc
  simp only [List.mem_map] at hc
  obtain ⟨m, _, hm⟩ := hc
  subst hm
  exact hexDigitChar_lower (m % 16) (Nat.mod_lt _ (by norm_num))

/-- C9: `oc_hash` returns the eight-character lowercase hexadecimal rendering
of the 32-bit FNV-1a digest of its argument's UTF-8 bytes, and is
deterministic (pure): equal inputs give equal outputs. The two closing
conjuncts anchor the embedding at the standard FNV-1a test vectors. -/
theorem claimC9 :
    (∀ s : String,
      oc_hash s = hex8 (fnv1a32 (utf8Bytes s))
      ∧ fnv1a32 (utf8Bytes s) < 4294967296
      ∧ (oc_hash s).length = 8
      ∧ (∀ c ∈ (oc_hash s).data,
          c.isDigit = true ∨ (97 ≤ c.toNat ∧ c.toNat ≤ 102))
      ∧ ∀ t : String, s = t → oc_hash s = oc_hash t)
    ∧ oc_hash "" = "811c9dc5"
    ∧ oc_hash "a" = "e40c292c" := by
  refine ⟨fun s => ⟨rfl, fnv1a32_lt _, hex8_length _, hex8_chars _,
    fun t ht => by rw [ht]⟩, ?_, ?_⟩
  · decide
  · decide

/-! ### Structural schema and defaulting (context builder, claims C1 and C8)

The `schema` package (`ApplyDefaults`, `ToStructural`) is not under `src/`
(only its callers and the schemaextractor README are), so those two
definitions are modelled from the spec; everything else in this section is
translated from `context/builder.go` and the addon builder. -/

/-- A structural schema: per-field optional default, child properties for
objects, item schema for arrays (`apiextensions` Structural, reduced to what
defaulting reads). -/
inductive Structural where
  | mk (default : Option Val) (properties : List (String × Structural))
      (items : Option Structural)

def Structural.default : Structural → Option Val
  | .mk d _ _ => d

def Structural.properties : Structural → List (String × Structural)
  | .mk _ p _ => p

def Structural.items : Structural → Option Structural
  | .mk _ _ i => i

mutual

def Structural.beq : Structural → Structural → Bool
  | .mk d1 p1 i1, .mk d2 p2 i2 =>
    d1 == d2 && Structural.beqProps p1 p2 && Structural.beqOpt i1 i2

def Structural.beqProps : List (String × Structural) → List (String × Structural) → Bool
  | [], [] => true
  | (k, v) :: xs, (l, w) :: ys => k == l && Structural.beq v w && Structural.beqProps xs ys
  | _, _ => false

def Structural.beqOpt : Option Structural → Option Structural → Bool
  | none, none => true
  | some a, some b => Structural.beq a b
  | _, _ => false

end

mutual

theorem Structural.beq_iff_eq_schema : ∀ a b : Structural, Structural.beq a b = true ↔ a = b
  | .mk d1 p1 i1, .mk d2 p2 i2 => by
    simp [Structural.beq, Structural.beqProps_iff_eq p1 p2, Structural.beqOpt_iff_eq i1 i2,
      and_assoc]

theorem Structural.beqProps_iff_eq :
    ∀ xs ys : List (String × Structural), Structural.beqProps xs ys = true ↔ xs = ys
  | [], [] => by simp [Structural.beqProps]
  | (k, v) :: xs, (l, w) :: ys => by
    simp [Structural.beqProps, Structural.beq_iff_eq_schema v w, Structural.beqProps_iff_eq xs ys,
      and_assoc]
  | [], _ :: _ => by simp [Structural.beqProps]
  | _ :: _, [] => by simp [Structural.beqProps]

theorem Structural.beqOpt_iff_eq :
    ∀ a b : Option Structural, Structural.beqOpt a b = true ↔ a = b
  | none, none => by simp [Structural.beqOpt]
  | some a, some b => by simp [Structural.beqOpt, Structural.beq_iff_eq_schema a b]
  | none, some _ => by simp [Structural.beqOpt]
  | some _, none => by simp [Structural.beqOpt]

end

instance : DecidableEq Structural := fun a b =>
  decidable_of_iff (Structural.beq a b = true) (Structural.beq_iff_eq_schema a b)

/-- Generic association-list lookup for the non-`Val` maps of the model
(schema property maps, per-addon override maps). -/
def alookup {α : Type _} : List (String × α) → String → Option α
  | [], _ => none
  | (k, v) :: rest, key => if k = key then some v else alookup rest key

/-- Keys of a schema property map are unique (Go maps never repeat a key). -/
def nodupSKeys : List (String × Structural) → Bool
  | [] => true
  | (k, _) :: rest => !(alookup rest k).isSome && nodupSKeys rest

mutual

/-- Modelled from the spec: `schema.ApplyDefaults` is not under `src/`.
Per §4.2, every declared field that is absent and has a default becomes
present with that default (deep-copied on application), recursively across
nested objects, and for arrays per-item defaults are applied to each
element; values that are not containers are returned unchanged. -/
def ApplyDefaults (v : Val) (s : Structural) : Val :=
  match v, s with
  | .obj fields, .mk _ props _ => .obj (applyDefaultsFields fields props)
  | .arr xs, .mk _ _ (some itemSchema) => .arr (applyDefaultsList xs itemSchema)
  | v, _ => v
termination_by (sizeOf s, sizeOf v)

/-- Walk the declared properties: a present field is defaulted recursively,
an absent field with a default is inserted (deep-copied), undeclared fields
are untouched. -/
def applyDefaultsFields (fields : Obj) : List (String × Structural) → Obj
  | [] => fields
  | (k, ps) :: rest =>
    let fields2 :=
      match lookupField fields k with
      | some v => setField fields k (ApplyDefaults v ps)
      | none =>
        match ps.default with
        | some d => setField fields k (deepCopyValue d)
        | none => fields
    applyDefaultsFields fields2 rest
termination_by props => (sizeOf props, 0)

def applyDefaultsList : List Val → Structural → List Val
  | [], _ => []
  | x :: rest, s => ApplyDefaults x s :: applyDefaultsList rest s
termination_by xs s => (sizeOf s, sizeOf xs)

end

/-- Modelled from the spec: `schema.ToStructural` is not under `src/`.
Per §4.2 (merged schemas), the top-level property sets of the declared
schemas are unioned and a conflicting property declaration is a
configuration error. -/
def toStructural (schemas : List (List (String × Structural))) : Except String Structural :=
  match unionProps schemas [] with
  | .error e => .error e
  | .ok props => .ok (.mk none props none)
where
  unionOne : List (String × Structural) → List (String × Structural) →
      Except String (List (String × Structural))
    | [], acc => .ok acc
    | (k, ps) :: rest, acc =>
      match alookup acc k with
      | none => unionOne rest (acc ++ [(k, ps)])
      | some ps2 =>
        if ps2 = ps then unionOne rest acc
        else .error "conflicting property schemas"
  unionProps : List (List (String × Structural)) → List (String × Structural) →
      Except String (List (String × Structural))
    | [], acc => .ok acc
    | m :: rest, acc =>
      match unionOne m acc with
      | .error e => .error e
      | .ok acc2 => unionProps rest acc2

/-! ### Context builder inputs (`context/types.go`, Kubernetes object stubs) -/

/-- `Component.Spec`: only the parameters RawExtension matters to the
builder; the raw JSON is modelled already parsed (`none` = nil raw). -/
structure ComponentSpecL where
  parameters : Option Obj

/-- A `v1alpha1.Component` as the builder reads it (`Name`, `Namespace`,
`Spec.Parameters`). -/
structure ComponentL where
  name : String
  nspace : String
  spec : ComponentSpecL

/-- The `Schema` block of a ComponentTypeDefinition or Addon: `Parameters`
and `EnvOverrides` schema RawExtensions, modelled already parsed into
property maps. -/
structure SchemaPairL where
  parameters : Option (List (String × Structural))
  envOverrides : Option (List (String × Structural))

/-- A `v1alpha1.ComponentTypeDefinition` as the builder reads it. -/
structure ComponentTypeDefinitionL where
  schema : SchemaPairL

/-- `v1alpha1.EnvSettings.Spec`: `Overrides` (component parameter overrides)
and `AddonOverrides` (`map[addonName]map[instanceId]RawExtension`). -/
structure EnvSettingsL where
  overrides : Option Obj
  addonOverrides : Option (List (String × List (String × Obj)))

/-- A workload container (`Image`, `Command`, `Args`). -/
structure ContainerL where
  image : String
  command : List String
  args : List String
deriving DecidableEq

/-- `v1alpha1.Workload` fields read by `extractWorkloadData`. -/
structure WorkloadL where
  name : String
  containers : List (String × ContainerL)
  endpoints : List Val
  connections : List Val

/-- `ComponentContextInput` from `context/types.go`; pointer fields become
`Option`. -/
structure ComponentContextInput where
  component : Option ComponentL
  componentTypeDefinition : Option ComponentTypeDefinitionL
  envSettings : Option EnvSettingsL
  workload : Option WorkloadL
  environment : String
  additionalMetadata : List (String × String)

/-- `SchemaInput` from `context/types.go`. -/
structure SchemaInput where
  parametersSchema : Option (List (String × Structural))
  envOverridesSchema : Option (List (String × Structural))
  structural : Option Structural

/-- A `v1alpha1.ComponentAddon` (the `Instance` field): instance id plus the
`Config` RawExtension. -/
structure ComponentAddonL where
  instanceID : String
  config : Option Obj

/-- A `v1alpha1.Addon` as the builder reads it. -/
structure AddonL where
  name : String
  schema : SchemaPairL

/-- `AddonContextInput` from `context/types.go` (`inst` embeds the Go
`Instance` field, which is a value, not a pointer). -/
structure AddonContextInput where
  addon : Option AddonL
  inst : ComponentAddonL
  component : Option ComponentL
  envSettings : Option EnvSettingsL
  environment : String
  additionalMetadata : List (String × String)

/-- Embeds `extractParameters`: a nil RawExtension yields an empty map;
otherwise the parsed JSON object (parsing is modelled as already done, so
the unmarshal error path is unreachable in the model). -/
def extractParameters (raw : Option Obj) : Obj := raw.getD []

/-- Embeds `buildStructuralSchema`: use the cached structural schema when
present, otherwise convert the declared schemas. -/
def buildStructuralSchema (input : SchemaInput) : Except String Structural :=
  match input.structural with
  | some s => .ok s
  | none =>
    let schemas :=
      (match input.parametersSchema with
        | some p => [p]
        | none => [])
      ++ (match input.envOverridesSchema with
        | some e => [e]
        | none => [])
    toStructural schemas

/-- Embeds `extractWorkloadData`: name, containers (image always, command
and args only when non-empty), endpoints and connections, each added only
when non-empty. -/
def extractWorkloadData (workload : Option WorkloadL) : Obj :=
  match workload with
  | none => []
  | some w =>
    (if w.name = "" then [] else [("name", Val.str w.name)])
    ++ (if w.containers = [] then []
        else [("containers", Val.obj (w.containers.map fun nc =>
          (nc.1,
            Val.obj ([("image", Val.str nc.2.image)]
              ++ (if nc.2.command = [] then []
                else [("command", Val.arr (nc.2.command.map Val.str))])
              ++ (if nc.2.args = [] then []
                else [("args", Val.arr (nc.2.args.map Val.str))])))))])
    ++ (if w.endpoints = [] then [] else [("endpoints", Val.arr w.endpoints)])
    ++ (if w.connections = [] then [] else [("connections", Val.arr w.connections)])

/-- The component parameter map right before defaulting: component
parameters, deep-merged with the environment overrides when `EnvSettings`
and its `Overrides` are present. -/
def mergedComponentParameters (input : ComponentContextInput) (comp : ComponentL) : Obj :=
  let parameters0 := extractParameters comp.spec.parameters
  match input.envSettings with
  | some es =>
    match es.overrides with
    | some ov => deepMerge parameters0 (extractParameters (some ov))
    | none => parameters0
  | none => parameters0

/-- The `component` metadata map (`name`, plus `namespace` when non-empty). -/
def componentMeta (comp : ComponentL) : Obj :=
  [("name", Val.str comp.name)]
  ++ (if comp.nspace = "" then [] else [("namespace", Val.str comp.nspace)])

/-- The context map `BuildComponentContext` assembles after the schema is
built: `parameters` always, `workload` when a workload was supplied,
`component` always, `environment` when non-empty, `metadata` when
non-empty. -/
def assembleComponentCtx (input : ComponentContextInput) (comp : ComponentL)
    (structural : Structural) : Ctx :=
  [("parameters", ApplyDefaults (.obj (mergedComponentParameters input comp)) structural)]
  ++ (match input.workload with
    | some w => [("workload", Val.obj (extractWorkloadData (some w)))]
    | none => [])
  ++ [("component", Val.obj (componentMeta comp))]
  ++ (if input.environment = "" then [] else [("environment", Val.str input.environment)])
  ++ (if input.additionalMetadata = [] then []
    else [("metadata", Val.obj (input.additionalMetadata.map fun kv => (kv.1, Val.str kv.2)))])

/-- Embeds `BuildComponentContext` (part_001): nil checks, schema build,
parameter merge and defaulting, context assembly. -/
def BuildComponentContext (input : Option ComponentContextInput) : Except String Ctx :=
  match input with
  | none => .error "component context input is nil"
  | some input =>
    match input.component with
    | none => .error "component is nil"
    | some comp =>
      match input.componentTypeDefinition with
      | none => .error "component type definition is nil"
      | some ctd =>
        match buildStructuralSchema ⟨ctd.schema.parameters, ctd.schema.envOverrides, none⟩ with
        | .error e => .error ("failed to build component schema: " ++ e)
        | .ok structural => .ok (assembleComponentCtx input comp structural)

/-- The addon parameter map right before defaulting: instance config,
deep-merged with the environment's per-addon-per-instance override when the
`AddonOverrides[addonName][instanceId]` lookups both succeed. -/
def mergedAddonParameters (input : AddonContextInput) (addon : AddonL) : Obj :=
  let parameters0 := extractParameters input.inst.config
  match input.envSettings with
  | some es =>
    match es.addonOverrides with
    | some ao =>
      match alookup ao addon.name with
      | some instMap =>
        match alookup instMap input.inst.instanceID with
        | some ov => deepMerge parameters0 (extractParameters (some ov))
        | none => parameters0
      | none => parameters0
    | none => parameters0
  | none => parameters0

/-- The context map `BuildAddonContext` assembles after the schema is built. -/
def assembleAddonCtx (input : AddonContextInput) (addon : AddonL) (comp : ComponentL)
    (structural : Structural) : Ctx :=
  [("parameters", ApplyDefaults (.obj (mergedAddonParameters input addon)) structural),
    ("addon", Val.obj [("name", Val.str addon.name),
      ("instanceId", Val.str input.inst.instanceID)]),
    ("component", Val.obj (componentMeta comp))]
  ++ (if input.environment = "" then [] else [("environment", Val.str input.environment)])
  ++ (if input.additionalMetadata = [] then []
    else [("metadata", Val.obj (input.additionalMetadata.map fun kv => (kv.1, Val.str kv.2)))])

/-- Embeds `BuildAddonContext` (part_003). -/
def BuildAddonContext (input : Option AddonContextInput) : Except String Ctx :=
  match input with
  | none => .error "addon context input is nil"
  | some input =>
    match input.addon with
    | none => .error "addon is nil"
    | some addon =>
      match input.component with
      | none => .error "component is nil"
      | some comp =>
        match buildStructuralSchema ⟨addon.schema.parameters, addon.schema.envOverrides, none⟩ with
        | .error e => .error ("failed to build addon schema: " ++ e)
        | .ok structural => .ok (assembleAddonCtx input addon comp structural)

/-! ### Defaulting and precedence lemmas (claims C1, C8) -/

/-- Field lookup inside an object value; `none` on non-objects. -/
def objLookup : Val → String → Option Val
  | .obj fields, k => lookupField fields k
  | _, _ => none

/-- Scalars of the plain-tree data model (not a mapping, not a sequence). -/
def isScalar : Val → Bool
  | .obj _ => false
  | .arr _ => false
  | _ => true

theorem applyDefaultsFields_lookup :
    ∀ (props : List (String × Structural)) (fields : Obj) (k : String),
      nodupSKeys props = true →
      lookupField (applyDefaultsFields fields props) k =
        match alookup props k with
        | none => lookupField fields k
        | some ps =>
          match lookupField fields k with
          | some v => some (ApplyDefaults v ps)
          | none =>
            match ps.default with
            | some d => some (deepCopyValue d)
            | none => none := by
  intro props
  induction props with
  | nil =>
    intro fields k _
    simp [applyDefaultsFields, alookup]
  | cons hd rest ih =>
    obtain ⟨k', ps⟩ := hd
    intro fields k hn
    simp only [nodupSKeys, Bool.and_eq_true, Bool.not_eq_true'] at hn
    obtain ⟨h1, h2⟩ := hn
    have hrest : alookup rest k' = none := by
      cases hr : alookup rest k' with
      | none => rfl
      | some w => simp [hr] at h1
    rw [show applyDefaultsFields fields ((k', ps) :: rest) =
          applyDefaultsFields
            (match lookupField fields k' with
              | some v => setField fields k' (ApplyDefaults v ps)
              | none =>
                match ps.default with
                | some d => setField fields k' (deepCopyValue d)
                | none => fields) rest from by
        simp [applyDefaultsFields]]
    rw [ih _ k h2]
    by_cases hk : k' = k
    · subst hk
      rw [hrest]
      cases hf : lookupField fields k' with
      | some v => simp [alookup, hf, lookupField_setField_self]
      | none =>
        cases hd : ps.default with
        | some d => simp [alookup, hf, hd, lookupField_setField_self]
        | none => simp [alookup, hf, hd]
    · have hflds : lookupField
          (match lookupField fields k' with
            | some v => setField fields k' (ApplyDefaults v ps)
            | none =>
              match ps.default with
              | some d => setField fields k' (deepCopyValue d)
              | none => fields) k = lookupField fields k := by
        cases hf : lookupField fields k' with
        | some v => simp [lookupField_setField_ne _ _ _ _ hk]
        | none =>
          cases hd : ps.default with
          | some d => simp [lookupField_setField_ne _ _ _ _ hk]
          | none => simp
      rw [hflds]
      simp [alookup, hk]

theorem ApplyDefaults_obj (fields : Obj) (s : Structural) :
    ApplyDefaults (.obj fields) s = .obj (applyDefaultsFields fields s.properties) := by
  cases s with
  | mk d p i => simp [ApplyDefaults, Structural.properties]

theorem ApplyDefaults_scalar (v : Val) (s : Structural) (h : isScalar v = true) :
    ApplyDefaults v s = v := by
  cases s with
  | mk d p i =>
    cases v <;> simp [isScalar] at h <;> cases i <;> simp [ApplyDefaults]

theorem mergeVal_not_map (e : Option Val) (v : Val) (h : isMapVal v = false) :
    mergeVal e v = deepCopyValue v := by
  cases e with
  | none => cases v <;> simp [mergeVal]
  | some w => cases w <;> cases v <;> simp [mergeVal] <;> simp [isMapVal] at h

/-- Precedence of the merged-then-defaulted parameter map at a key `k`:
an environment override (scalar) wins; otherwise a declared (scalar)
parameter wins; otherwise the schema default is filled in. -/
theorem mergedDefaulted_precedence (base ov : Obj) (s : Structural) (k : String)
    (hno : nodupKeys ov = true) (hns : nodupSKeys s.properties = true) :
    (∀ v, lookupField ov k = some v → isScalar v = true →
      objLookup (ApplyDefaults (.obj (deepMerge base ov)) s) k = some v)
    ∧ (∀ v, lookupField ov k = none → lookupField base k = some v → isScalar v = true →
      objLookup (ApplyDefaults (.obj (deepMerge base ov)) s) k = some v)
    ∧ (∀ ps d, lookupField ov k = none → lookupField base k = none →
      alookup s.properties k = some ps → ps.default = some d →
      objLookup (ApplyDefaults (.obj (deepMerge base ov)) s) k = some d) := by
  have hbase : objLookup (ApplyDefaults (.obj (deepMerge base ov)) s) k =
      match alookup s.properties k with
      | none => lookupField (deepMerge base ov) k
      | some ps =>
        match lookupField (deepMerge base ov) k with
        | some v => some (ApplyDefaults v ps)
        | none =>
          match ps.default with
          | some d => some (deepCopyValue d)
          | none => none := by
    rw [ApplyDefaults_obj]
    show lookupField (applyDefaultsFields (deepMerge base ov) s.properties) k = _
    exact applyDefaultsFields_lookup s.properties (deepMerge base ov) k hns
  refine ⟨?envWins, ?declWins, ?defaultFills⟩
  case envWins =>
    intro v hov hsc
    have hmap : isMapVal v = false := by
      cases v <;> simp [isScalar] at hsc <;> simp [isMapVal]
    have hmv : lookupField (deepMerge base ov) k = some v := by
      rw [deepMerge_lookup base ov k hno]
      simp [hov, mergeVal_not_map _ _ hmap, deepCopyValue_id]
    rw [hbase]
    cases hp : alookup s.properties k with
    | none => simp [hmv]
    | some ps => simp [hmv, ApplyDefaults_scalar v ps hsc]
  case declWins =>
    intro v hov hb hsc
    have hmv : lookupField (deepMerge base ov) k = some v := by
      rw [deepMerge_lookup base ov k hno]
      simp [hov, hb]
    rw [hbase]
    cases hp : alookup s.properties k with
    | none => simp [hmv]
    | some ps => simp [hmv, ApplyDefaults_scalar v ps hsc]
  case defaultFills =>
    intro ps d hov hb hp hd
    have hmv : lookupField (deepMerge base ov) k = none := by
      rw [deepMerge_lookup base ov k hno]
      simp [hov, hb]
    rw [hbase]
    simp [hp, hmv, hd, deepCopyValue_id]

/-- C1: for every successful component render, the `parameters` context
entry is the environment overrides deep-merged over the component's declared
parameters, then schema-defaulted; the addon context computes `parameters`
the same way from the instance config, the per-addon-per-instance
environment override and the addon schema; and that composition gives the
claimed precedence at every key: environment override over declared
parameter over schema default. -/
theorem claimC1 :
    (∀ (input : ComponentContextInput) (ctx : Ctx),
      BuildComponentContext (some input) = .ok ctx →
      ∃ comp ctd structural,
        input.component = some comp
        ∧ input.componentTypeDefinition = some ctd
        ∧ buildStructuralSchema ⟨ctd.schema.parameters, ctd.schema.envOverrides, none⟩
            = .ok structural
        ∧ lookupField ctx "parameters"
            = some (ApplyDefaults (.obj (mergedComponentParameters input comp)) structural))
    ∧ (∀ (input : AddonContextInput) (ctx : Ctx),
      BuildAddonContext (some input) = .ok ctx →
      ∃ addon comp structural,
        input.addon = some addon
        ∧ input.component = some comp
        ∧ buildStructuralSchema ⟨addon.schema.parameters, addon.schema.envOverrides, none⟩
            = .ok structural
        ∧ lookupField ctx "parameters"
            = some (ApplyDefaults (.obj (mergedAddonParameters input addon)) structural))
    ∧ (∀ (base ov : Obj) (s : Structural) (k : String),
      nodupKeys ov = true → nodupSKeys s.properties = true →
      (∀ v, lookupField ov k = some v → isScalar v = true →
        objLookup (ApplyDefaults (.obj (deepMerge base ov)) s) k = some v)
      ∧ (∀ v, lookupField ov k = none → lookupField base k = some v → isScalar v = true →
        objLookup (ApplyDefaults (.obj (deepMerge base ov)) s) k = some v)
      ∧ (∀ ps d, lookupField ov k = none → lookupField base k = none →
        alookup s.properties k = some ps → ps.default = some d →
        objLookup (ApplyDefaults (.obj (deepMerge base ov)) s) k = some d)) := by
  refine ⟨?comp, ?addon, mergedDefaulted_precedence⟩
  case comp =>
    intro input ctx h
    cases hc : input.component with
    | none => simp [BuildComponentContext, hc] at h
    | some comp =>
      cases hd : input.componentTypeDefinition with
      | none => simp [BuildComponentContext, hc, hd] at h
      | some ctd =>
        cases hs : buildStructuralSchema ⟨ctd.schema.parameters, ctd.schema.envOverrides, none⟩ with
        | error e => simp [BuildComponentContext, hc, hd, hs] at h
        | ok structural =>
          simp only [BuildComponentContext, hc, hd, hs] at h
          refine ⟨comp, ctd, structural, rfl, rfl, hs, ?_⟩
          cases h
          simp [assembleComponentCtx, lookupField]
  case addon =>
    intro input ctx h
    cases ha : input.addon with
    | none => simp [BuildAddonContext, ha] at h
    | some addon =>
      cases hc : input.component with
      | none => simp [BuildAddonContext, ha, hc] at h
      | some comp =>
        cases hs : buildStructuralSchema ⟨addon.schema.parameters, addon.schema.envOverrides, none⟩ with
        | error e => simp [BuildAddonContext, ha, hc, hs] at h
        | ok structural =>
          simp only [BuildAddonContext, ha, hc, hs] at h
          refine ⟨addon, comp, structural, rfl, rfl, hs, ?_⟩
          cases h
          simp [assembleAddonCtx, lookupField]

/-- Witness for C1 at concrete inputs: with declared parameters
`(p then 1, q then 2)`, environment override `(p then 9)` and a schema default
`d` for `r`, the defaulted parameters hold 9 at `p` (override wins), 2 at
`q` (declared wins) and `d` at `r` (default fills). -/
theorem claimC1_witness :
    objLookup (ApplyDefaults
        (.obj (deepMerge [("p", Val.int 1), ("q", Val.int 2)] [("p", Val.int 9)]))
        (.mk none [("r", .mk (some (.str "d")) [] none)] none)) "p" = some (Val.int 9)
    ∧ objLookup (ApplyDefaults
        (.obj (deepMerge [("p", Val.int 1), ("q", Val.int 2)] [("p", Val.int 9)]))
        (.mk none [("r", .mk (some (.str "d")) [] none)] none)) "q" = some (Val.int 2)
    ∧ objLookup (ApplyDefaults
        (.obj (deepMerge [("p", Val.int 1), ("q", Val.int 2)] [("p", Val.int 9)]))
        (.mk none [("r", .mk (some (.str "d")) [] none)] none)) "r" = some (Val.str "d") :=
  ⟨(claimC1.2.2 [("p", Val.int 1), ("q", Val.int 2)] [("p", Val.int 9)]
      (.mk none [("r", .mk (some (.str "d")) [] none)] none) "p"
      (by decide) (by decide)).1 (Val.int 9) (by decide) (by decide),
    (claimC1.2.2 [("p", Val.int 1), ("q", Val.int 2)] [("p", Val.int 9)]
      (.mk none [("r", .mk (some (.str "d")) [] none)] none) "q"
      (by decide) (by decide)).2.1 (Val.int 2) (by decide) (by decide) (by decide),
    (claimC1.2.2 [("p", Val.int 1), ("q", Val.int 2)] [("p", Val.int 9)]
      (.mk none [("r", .mk (some (.str "d")) [] none)] none) "r"
      (by decide) (by decide)).2.2 (.mk (some (.str "d")) [] none) (Val.str "d")
      (by decide) (by decide) (by decide) (by decide)⟩

/-! ### Claim C8: which top-level keys a successful BuildComponentContext has -/

/-- A minimal valid component-context input: component and type definition
present (no declared schemas), no environment settings, no workload, empty
environment name, no additional metadata. -/
def c8Input : ComponentContextInput :=
  ⟨some ⟨"c", "", ⟨none⟩⟩, some ⟨⟨none, none⟩⟩, none, none, "", []⟩

/-- The context `BuildComponentContext` returns for `c8Input`. -/
def c8Ctx : Ctx :=
  [("parameters", Val.obj []), ("component", Val.obj [("name", Val.str "c")])]

theorem c8_eval : BuildComponentContext (some c8Input) = .ok c8Ctx := by
  simp [BuildComponentContext, c8Input, c8Ctx, buildStructuralSchema, toStructural,
    toStructural.unionProps, assembleComponentCtx, mergedComponentParameters,
    extractParameters, ApplyDefaults, applyDefaultsFields, componentMeta]

/-- Counterexample to C8 as stated: this call succeeds, yet the returned
context has no `workload`, `environment` or `metadata` key (they are added
only when a workload is supplied, the environment name is non-empty, and
additional metadata is non-empty, respectively). -/
theorem claimC8_counterexample :
    BuildComponentContext (some c8Input) = .ok c8Ctx
    ∧ lookupField c8Ctx "workload" = none
    ∧ lookupField c8Ctx "environment" = none
    ∧ lookupField c8Ctx "metadata" = none :=
  ⟨c8_eval, by decide, by decide, by decide⟩

/-- C8 (amended): a successful `BuildComponentContext` always yields
`parameters` and `component`; `workload` is present exactly when a workload
input was supplied, `environment` exactly when the environment name is
non-empty, and `metadata` exactly when additional metadata is non-empty. -/
theorem claimC8_amended :
    ∀ (input : ComponentContextInput) (ctx : Ctx),
      BuildComponentContext (some input) = .ok ctx →
      (lookupField ctx "parameters").isSome = true
      ∧ (lookupField ctx "component").isSome = true
      ∧ ((lookupField ctx "workload").isSome = true ↔ input.workload ≠ none)
      ∧ ((lookupField ctx "environment").isSome = true ↔ input.environment ≠ "")
      ∧ ((lookupField ctx "metadata").isSome = true ↔ input.additionalMetadata ≠ []) := by
  intro input ctx h
  cases hc : input.component with
  | none => simp [BuildComponentContext, hc] at h
  | some comp =>
    cases hd : input.componentTypeDefinition with
    | none => simp [BuildComponentContext, hc, hd] at h
    | some ctd =>
      cases hs : buildStructuralSchema ⟨ctd.schema.parameters, ctd.schema.envOverrides, none⟩ with
      | error e => simp [BuildComponentContext, hc, hd, hs] at h
      | ok structural =>
        simp only [BuildComponentContext, hc, hd, hs] at h
        cases h
        cases hw : input.workload with
        | some w =>
          by_cases he : input.environment = "" <;>
            by_cases hm : input.additionalMetadata = [] <;>
              simp [assembleComponentCtx, hw, he, hm, lookupField]
        | none =>
          by_cases he : input.environment = "" <;>
            by_cases hm : input.additionalMetadata = [] <;>
              simp [assembleComponentCtx, hw, he, hm, lookupField]

/-- Witness for the amended C8 at the concrete input `c8Input`. -/
theorem claimC8_witness :
    (lookupField c8Ctx "parameters").isSome = true
    ∧ (lookupField c8Ctx "component").isSome = true
    ∧ ((lookupField c8Ctx "workload").isSome = true ↔ c8Input.workload ≠ none)
    ∧ ((lookupField c8Ctx "environment").isSome = true ↔ c8Input.environment ≠ "")
    ∧ ((lookupField c8Ctx "metadata").isSome = true ↔ c8Input.additionalMetadata ≠ []) :=
  claimC8_amended c8Input c8Ctx c8_eval

/-! ### Patch engine: path expansion (`patch.go`, claims C2, C4, C5, C10)

The Go code works on strings with `strings` helpers and one regular
expression; the embedding works on `List Char` with structural recursions so
that concrete paths evaluate inside the kernel. -/

/-- The single-quote character of the filter grammar. -/
def quoteChar : Char := Char.ofNat 39

/-- A quote as accepted by the filter regular expression's quote classes. -/
def isQuoteChar (c : Char) : Bool := c = quoteChar || c = '"'

/-- Whitespace as matched by the regular expression's space class. -/
def isSpaceChar (c : Char) : Bool :=
  c = ' ' || c = Char.ofNat 9 || c = Char.ofNat 10 || c = Char.ofNat 13
    || c = Char.ofNat 11 || c = Char.ofNat 12

/-- A character of the filter field-path class (letters, digits,
underscore, dot, hyphen). -/
def isFieldChar (c : Char) : Bool :=
  c.isAlpha || c.isDigit || c = '_' || c = '.' || c = '-'

/-- `strings.Split` on a one-character separator (empty parts preserved). -/
def splitOnCharAux (sep : Char) : List Char → List Char → List String
  | [], acc => [String.mk acc.reverse]
  | c :: rest, acc =>
    if c = sep then String.mk acc.reverse :: splitOnCharAux sep rest []
    else splitOnCharAux sep rest (c :: acc)

def splitOnChar (sep : Char) (s : List Char) : List String := splitOnCharAux sep s []

/-- `strings.TrimSpace` (ASCII whitespace). -/
def trimSpace (chars : List Char) : List Char :=
  ((chars.dropWhile fun c => isSpaceChar c).reverse.dropWhile fun c => isSpaceChar c).reverse

/-- `strings.ReplaceAll seg "~1" "/"` (left-to-right, non-overlapping). -/
def unescTilde1 : List Char → List Char
  | '~' :: '1' :: rest => '/' :: unescTilde1 rest
  | c :: rest => c :: unescTilde1 rest
  | [] => []

/-- `strings.ReplaceAll seg "~0" "~"`. -/
def unescTilde0 : List Char → List Char
  | '~' :: '0' :: rest => '~' :: unescTilde0 rest
  | c :: rest => c :: unescTilde0 rest
  | [] => []

/-- Embeds `unescapePointerSegment`: decode `~1` to `/` first, then `~0`
to `~`. -/
def unescapePointerSegment (seg : String) : String :=
  String.mk (unescTilde0 (unescTilde1 seg.data))

/-- `strings.ReplaceAll seg "~" "~0"`. -/
def escTilde : List Char → List Char
  | '~' :: rest => '~' :: '0' :: escTilde rest
  | c :: rest => c :: escTilde rest
  | [] => []

/-- `strings.ReplaceAll seg "/" "~1"`. -/
def escSlash : List Char → List Char
  | '/' :: rest => '~' :: '1' :: escSlash rest
  | c :: rest => c :: escSlash rest
  | [] => []

/-- Embeds `escapePointerSegment`: encode `~` first, then `/`. -/
def escapePointerSegment (seg : String) : String :=
  String.mk (escSlash (escTilde seg.data))

/-- Embeds `splitRawPath`: optional leading slash, then split on `/`. -/
def splitRawPath (path : String) : List String :=
  if path = "" then []
  else
    let trimmed :=
      match path.data with
      | '/' :: rest => rest
      | chars => chars
    if trimmed = [] then [""] else splitOnChar '/' trimmed

/-- Embeds `splitPointer`: like `splitRawPath` but RFC 6901-unescaping every
segment except the append marker `-`. -/
def splitPointer (pointer : String) : List String :=
  if pointer = "" then []
  else
    let trimmed :=
      match pointer.data with
      | '/' :: rest => rest
      | chars => chars
    if trimmed = [] then [""]
    else (splitOnChar '/' trimmed).map fun part =>
      if part = "-" then part else unescapePointerSegment part

/-- Embeds `appendPointer`: a fresh segment list with one more segment. -/
def appendPointer (base : List String) (segment : String) : List String :=
  base ++ [segment]

/-- Embeds `buildJSONPointer`: each segment prefixed with `/` and escaped,
except the append marker. -/
def buildJSONPointer (segments : List String) : String :=
  if segments = [] then ""
  else String.join (segments.map fun seg =>
    "/" ++ (if seg = "-" then seg else escapePointerSegment seg))

/-- Decimal digit accumulation for `Atoi` (all characters must be digits). -/
def parseDigitsAux : List Char → Nat → Option Nat
  | [], acc => some acc
  | c :: rest, acc =>
    if c.isDigit then parseDigitsAux rest (acc * 10 + (c.toNat - 48)) else none

def parseDigits : List Char → Option Nat
  | [] => none
  | chars => parseDigitsAux chars 0

/-- Go `strconv.Atoi`: optional sign then one or more decimal digits
(the 64-bit range error is not modelled; paths never carry such indices). -/
def Atoi (s : String) : Option Int :=
  match s.data with
  | '+' :: rest => (parseDigits rest).map Int.ofNat
  | '-' :: rest => (parseDigits rest).map fun n => -(n : Int)
  | chars => (parseDigits chars).map Int.ofNat

/-- Embeds `pathState`: a JSON-Pointer-in-progress plus the value at that
location (`Val.null` models a Go nil `any`). -/
structure PathState where
  pointer : List String
  value : Val
deriving DecidableEq

mutual

/-- Models Go `fmt.Sprintf` with `%v` on decoded values, used by the filter
comparison: strings verbatim, numbers in decimal, booleans as `true`/`false`,
sequences space-separated in brackets, mappings as `map[k:v ...]` with keys
sorted (`fmt` is outside the repo; containers never occur in the tests'
filters). -/
def goToString : Val → String
  | .null => "<nil>"
  | .bool true => "true"
  | .bool false => "false"
  | .int n => toString n
  | .str s => s
  | .arr xs => "[" ++ String.intercalate " " (goToStringList xs) ++ "]"
  | .obj fs =>
    "map[" ++ String.intercalate " "
      (((goToStringEntries fs).mergeSort fun a b => a.1 ≤ b.1).map fun kv =>
        kv.1 ++ ":" ++ kv.2) ++ "]"

def goToStringList : List Val → List String
  | [] => []
  | v :: rest => goToString v :: goToStringList rest

def goToStringEntries : List (String × Val) → List (String × String)
  | [] => []
  | (k, v) :: rest => (k, goToString v) :: goToStringEntries rest

end

/-- The anchored filter regular expression: on success, the captured field
path (group 1) and expected literal (group 2). Group 1 is the longest
nonempty run of field characters after `@.`; after optional whitespace,
`==`, optional whitespace and an opening quote, group 2 is everything up to
the final character, which must be a quote. -/
def parseFilter : List Char → Option (String × String)
  | '@' :: '.' :: rest =>
    let fieldChars := rest.takeWhile fun c => isFieldChar c
    if fieldChars = [] then none
    else
      match (rest.dropWhile fun c => isFieldChar c).dropWhile fun c => isSpaceChar c with
      | '=' :: '=' :: rest3 =>
        match rest3.dropWhile fun c => isSpaceChar c with
        | q :: rest4 =>
          if isQuoteChar q
              && (match rest4.getLast? with
                | some c => isQuoteChar c
                | none => false) then
            some (String.mk fieldChars, String.mk rest4.dropLast)
          else none
        | [] => none
      | _ => none
  | _ => none

/-- The field navigation loop of `matchesFilter`: walk nested mappings; a
non-mapping or a missing key gives `none`. -/
def filterNavigate : Val → List String → Option Val
  | cur, [] => some cur
  | cur, seg :: rest =>
    match cur with
    | .obj fields =>
      match lookupField fields seg with
      | some v => filterNavigate v rest
      | none => none
    | _ => none

/-- Embeds `matchesFilter`: parse the (trimmed) filter expression, navigate
the field path (absent field or non-mapping step is a non-match, not an
error), then compare — a nil final value matches only the empty literal,
anything else by its stringified form. -/
def matchesFilter (item : Val) (expr : String) : Except String Bool :=
  match parseFilter (trimSpace expr.data) with
  | none => .error ("unsupported filter expression: " ++ expr)
  | some (fieldPath, expected) =>
    match filterNavigate item (splitOnChar '.' fieldPath.data) with
    | none => .ok false
    | some .null => .ok (expected == "")
    | some v => .ok (goToString v == expected)

/-- The sub-parts of one path segment as `applySegment` scans it: plain
(non-bracket) runs and bracket contents. -/
inductive SegPart where
  | plain (token : String)
  | bracket (content : String)
deriving DecidableEq

/-- Emit a pending plain run, if non-empty (Go skips empty tokens). -/
def flushPlain (pacc : List Char) (parts : List SegPart) : List SegPart :=
  if pacc = [] then parts else SegPart.plain (String.mk pacc.reverse) :: parts

/-- Character automaton behind `applySegment`'s scan: `bacc = some _` while
inside a bracket (content up to the first `]`), a `[` flushes the pending
plain run, and end-of-input inside a bracket is the unclosed-bracket
error. -/
def tokenizeAux : List Char → Option (List Char) → List Char → List SegPart →
    Except String (List SegPart)
  | [], some _, _, _ => .error "unclosed bracket segment"
  | [], none, pacc, parts => .ok (flushPlain pacc parts).reverse
  | c :: rest, some bacc, pacc, parts =>
    if c = ']' then
      tokenizeAux rest none [] (SegPart.bracket (String.mk bacc.reverse) :: parts)
    else tokenizeAux rest (some (c :: bacc)) pacc parts
  | c :: rest, none, pacc, parts =>
    if c = '[' then tokenizeAux rest (some []) [] (flushPlain pacc parts)
    else tokenizeAux rest none (c :: pacc) parts

/-- The bracket/plain decomposition of one segment string. -/
def tokenizeSegment (segment : String) : Except String (List SegPart) :=
  tokenizeAux segment.data none [] []

/-- Embeds `applyKey`: traverse an object key for all current states; an
empty key is skipped, traversing through nil yields nil, anything else is
an error. -/
def applyKey (states : List PathState) (key : String) : Except String (List PathState) :=
  if key = "" then .ok states
  else states.mapM fun st =>
    match st.value with
    | .obj fields =>
      .ok ⟨appendPointer st.pointer key, (lookupField fields key).getD .null⟩
    | .null => .ok ⟨appendPointer st.pointer key, .null⟩
    | _ => .error ("path segment expects an object: " ++ key)

/-- Embeds `applyIndex`: traverse an array index for all current states;
non-arrays and out-of-bounds indices are errors. -/
def applyIndex (states : List PathState) (index : Int) : Except String (List PathState) :=
  states.mapM fun st =>
    match st.value with
    | .arr arr =>
      if index < 0 ∨ (arr.length : Int) ≤ index then
        .error "array index out of bounds"
      else .ok ⟨appendPointer st.pointer (toString index), arr.getD index.toNat .null⟩
    | _ => .error "path segment expects an array"

/-- Embeds `applyDash`: append the `-` marker to every state (its value is
nil since `-` points past the end). -/
def applyDash (states : List PathState) : List PathState :=
  states.map fun st => ⟨appendPointer st.pointer "-", .null⟩

/-- The per-element loop of `applyFilter`: test each element, keeping the
matching (index, element) pairs as new states. -/
def applyFilterItems (ptr : List String) (expr : String) :
    Nat → List Val → Except String (List PathState)
  | _, [] => .ok []
  | idx, item :: rest =>
    match matchesFilter item expr with
    | .error e => .error e
    | .ok b =>
      match applyFilterItems ptr expr (idx + 1) rest with
      | .error e => .error e
      | .ok next =>
        .ok (if b then ⟨appendPointer ptr (toString idx), item⟩ :: next else next)

/-- Embeds `applyFilter`: fan each array-valued state out to its matching
elements; non-array or empty-array states are skipped. -/
def applyFilter : List PathState → String → Except String (List PathState)
  | [], _ => .ok []
  | st :: rest, expr =>
    match st.value with
    | .arr arr =>
      if arr = [] then applyFilter rest expr
      else
        match applyFilterItems st.pointer expr 0 arr with
        | .error e => .error e
        | .ok matched =>
          match applyFilter rest expr with
          | .error e => .error e
          | .ok next => .ok (matched ++ next)
    | _ => applyFilter rest expr

/-- Route one scanned sub-part: a bracket is a filter, the append marker or
a numeric index; a plain token is a numeric index when `Atoi` accepts it and
an object key otherwise. -/
def applyPart (states : List PathState) : SegPart → Except String (List PathState)
  | .bracket content =>
    match content.data with
    | '?' :: '(' :: _ =>
      if content.data.getLast? = some ')' then
        applyFilter states (String.mk (content.data.drop 2).dropLast)
      else
        match Atoi content with
        | some index => applyIndex states index
        | none => .error ("unsupported array index " ++ content)
    | _ =>
      if content = "-" then .ok (applyDash states)
      else
        match Atoi content with
        | some index => applyIndex states index
        | none => .error ("unsupported array index " ++ content)
  | .plain token =>
    match Atoi token with
    | some index => applyIndex states index
    | none => applyKey states token

def applyPartsLoop (states : List PathState) : List SegPart → Except String (List PathState)
  | [] => .ok states
  | p :: rest =>
    match applyPart states p with
    | .error e => .error e
    | .ok next => applyPartsLoop next rest

/-- Embeds `applySegment`: scan the segment's bracket and plain sub-parts
and apply them in order, starting from the single given state. -/
def applySegment (st : PathState) (segment : String) : Except String (List PathState) :=
  match tokenizeSegment segment with
  | .error e => .error e
  | .ok parts => applyPartsLoop [st] parts

def applySegmentAll : List PathState → String → Except String (List PathState)
  | [], _ => .ok []
  | st :: rest, segment =>
    match applySegment st segment with
    | .error e => .error e
    | .ok expanded =>
      match applySegmentAll rest segment with
      | .error e => .error e
      | .ok more => .ok (expanded ++ more)

/-- The segment loop of `expandPaths`: the `-` marker applies without
needing current values, and the loop stops early once no states remain. -/
def expandLoop : List String → List PathState → Except String (List PathState)
  | [], states => .ok states
  | segment :: rest, states =>
    if segment = "-" then expandLoop rest (applyDash states)
    else
      match applySegmentAll states segment with
      | .error e => .error e
      | .ok nextStates =>
        if nextStates = [] then .ok [] else expandLoop rest nextStates

/-- Embeds `expandPaths`: convert a path expression into the JSON Pointers
of all surviving states (the empty path is the root pointer). -/
def expandPaths (root : Obj) (rawPath : String) : Except String (List String) :=
  if rawPath = "" then .ok [""]
  else
    match expandLoop (splitRawPath rawPath) [⟨[], .obj root⟩] with
    | .error e => .error e
    | .ok states => .ok (states.map fun st => buildJSONPointer st.pointer)

/-! ### Patch engine: RFC 6902 execution and mergeShallow (claims C2, C4, C5) -/

/-- An RFC 6901 array index as the JSON-Patch library reads it (a
non-negative decimal). -/
def parseArrayIndex (seg : String) : Option Nat :=
  match Atoi seg with
  | some i => if i < 0 then none else some i.toNat
  | none => none

/-- The JSON-Patch library's pointer parse: `""` is the whole document,
otherwise segments after a leading `/`, RFC 6901-unescaped. -/
def parseRFC6901 (pointer : String) : Except String (List String) :=
  if pointer = "" then .ok []
  else
    match pointer.data with
    | '/' :: rest => .ok ((splitOnChar '/' rest).map unescapePointerSegment)
    | _ => .error "invalid JSON pointer"

/-- RFC 6902 `test`/`copy` evaluation: the value a pointer designates. -/
def jpGet : Val → List String → Except String Val
  | doc, [] => .ok doc
  | doc, seg :: rest =>
    match doc with
    | .obj fields =>
      match lookupField fields seg with
      | some v => jpGet v rest
      | none => .error ("path does not exist: " ++ seg)
    | .arr xs =>
      match parseArrayIndex seg with
      | some i =>
        if h : i < xs.length then jpGet (xs.getD i .null) rest
        else .error "array index out of bounds"
      | none => .error ("invalid array index: " ++ seg)
    | _ => .error ("path does not exist: " ++ seg)

/-- RFC 6902 `add`: replace the whole document at the root pointer, set or
insert at an object key, insert (shifting) at an array index, append at
`-`. -/
def jpAdd : Val → List String → Val → Except String Val
  | _, [], v => .ok v
  | doc, [seg], v =>
    match doc with
    | .obj fields => .ok (.obj (setField fields seg v))
    | .arr xs =>
      if seg = "-" then .ok (.arr (xs ++ [v]))
      else
        match parseArrayIndex seg with
        | some i =>
          if i ≤ xs.length then .ok (.arr (xs.take i ++ [v] ++ xs.drop i))
          else .error "array index out of bounds"
        | none => .error ("invalid array index: " ++ seg)
    | _ => .error "cannot add into a non-container"
  | doc, seg :: rest, v =>
    match doc with
    | .obj fields =>
      match lookupField fields seg with
      | some child =>
        match jpAdd child rest v with
        | .error e => .error e
        | .ok c => .ok (.obj (setField fields seg c))
      | none => .error ("path does not exist: " ++ seg)
    | .arr xs =>
      match parseArrayIndex seg with
      | some i =>
        if i < xs.length then
          match jpAdd (xs.getD i .null) rest v with
          | .error e => .error e
          | .ok c => .ok (.arr (xs.set i c))
        else .error "array index out of bounds"
      | none => .error ("invalid array index: " ++ seg)
    | _ => .error "cannot traverse a non-container"

/-- RFC 6902 `remove`: the designated member must exist. -/
def jpRemove : Val → List String → Except String Val
  | _, [] => .error "cannot remove the whole document"
  | doc, [seg] =>
    match doc with
    | .obj fields =>
      match lookupField fields seg with
      | some _ => .ok (.obj (removeField fields seg))
      | none => .error ("path does not exist: " ++ seg)
    | .arr xs =>
      match parseArrayIndex seg with
      | some i =>
        if i < xs.length then .ok (.arr (xs.take i ++ xs.drop (i + 1)))
        else .error "array index out of bounds"
      | none => .error ("invalid array index: " ++ seg)
    | _ => .error "cannot remove from a non-container"
  | doc, seg :: rest =>
    match doc with
    | .obj fields =>
      match lookupField fields seg with
      | some child =>
        match jpRemove child rest with
        | .error e => .error e
        | .ok c => .ok (.obj (setField fields seg c))
      | none => .error ("path does not exist: " ++ seg)
    | .arr xs =>
      match parseArrayIndex seg with
      | some i =>
        if i < xs.length then
          match jpRemove (xs.getD i .null) rest with
          | .error e => .error e
          | .ok c => .ok (.arr (xs.set i c))
        else .error "array index out of bounds"
      | none => .error ("invalid array index: " ++ seg)
    | _ => .error "cannot traverse a non-container"

/-- RFC 6902 `replace`: the designated member must exist. -/
def jpReplace : Val → List String → Val → Except String Val
  | _, [], v => .ok v
  | doc, [seg], v =>
    match doc with
    | .obj fields =>
      match lookupField fields seg with
      | some _ => .ok (.obj (setField fields seg v))
      | none => .error ("path does not exist: " ++ seg)
    | .arr xs =>
      match parseArrayIndex seg with
      | some i =>
        if i < xs.length then .ok (.arr (xs.set i v))
        else .error "array index out of bounds"
      | none => .error ("invalid array index: " ++ seg)
    | _ => .error "cannot replace in a non-container"
  | doc, seg :: rest, v =>
    match doc with
    | .obj fields =>
      match lookupField fields seg with
      | some child =>
        match jpReplace child rest v with
        | .error e => .error e
        | .ok c => .ok (.obj (setField fields seg c))
      | none => .error ("path does not exist: " ++ seg)
    | .arr xs =>
      match parseArrayIndex seg with
      | some i =>
        if i < xs.length then
          match jpReplace (xs.getD i .null) rest v with
          | .error e => .error e
          | .ok c => .ok (.arr (xs.set i c))
        else .error "array index out of bounds"
      | none => .error ("invalid array index: " ++ seg)
    | _ => .error "cannot traverse a non-container"

/-- RFC 6902 `test`: structural equality with the designated value, failure
is a patch error. -/
def jpTest (doc : Val) (segs : List String) (v : Val) : Except String Val :=
  match jpGet doc segs with
  | .error e => .error e
  | .ok got => if got = v then .ok doc else .error "test operation failed"

/-- Modelled from the spec: `applyJSONPatch` delegates the single-operation
patch to the external `github.com/evanphx/json-patch` library (not part of
this repository). Per §4.5 the operations add, replace, remove and test
follow RFC 6902; `move` and `copy` require a `from` pointer, which
`JSONPatchOperation` cannot carry, so the library rejects the decoded
operations; and because the patched bytes are unmarshalled back into
`map[string]any`, a patch whose result root is not a mapping is an error. -/
def applyJSONPatch (target : Obj) (op : String) (pointer : String) (value : Val) :
    Except String Obj :=
  match parseRFC6901 pointer with
  | .error e => .error e
  | .ok segs =>
    let result : Except String Val :=
      if op = "add" then jpAdd (.obj target) segs value
      else if op = "replace" then jpReplace (.obj target) segs value
      else if op = "remove" then jpRemove (.obj target) segs
      else if op = "test" then jpTest (.obj target) segs value
      else if op = "move" then .error "missing from path"
      else if op = "copy" then .error "missing from path"
      else .error ("unknown op: " ++ op)
    match result with
    | .error e => .error ("failed to apply JSON patch: " ++ e)
    | .ok (.obj fields) => .ok fields
    | .ok _ => .error "failed to unmarshal patched document"

/-- Embeds `determineNextContainerType`: inspect the segment after `index`
(or `last` when `index` is the final parent segment) — `-` or a numeric
segment calls for an empty array, anything else for an empty object. -/
def determineNextContainerType (segments : List String) (index : Nat) (last : String) : Val :=
  let nextSeg := segments.getD (index + 1) last
  if nextSeg = "-" then .arr []
  else if (Atoi nextSeg).isSome then .arr []
  else .obj []

mutual

/-- The parent-traversal loop of `ensureParentExists` over the remaining
segments (the final segment is never traversed). On a mapping, a missing or
nil child is auto-created: an empty array when the following segment is
`-`, an error when it is numeric (the array must already exist and be long
enough), an empty object otherwise. -/
def ensureParentGo : Val → List String → Except String Val
  | cur, [] => .ok cur
  | cur, [_] => .ok cur
  | cur, seg :: next :: rest =>
    match cur with
    | .obj node =>
      match lookupField node seg with
      | some child =>
        if child = .null then
          ensureParentCreate node seg next rest
        else
          match ensureParentGo child (next :: rest) with
          | .error e => .error e
          | .ok c => .ok (.obj (setField node seg c))
      | none => ensureParentCreate node seg next rest
    | .arr node =>
      match Atoi seg with
      | none => .error ("expected array index at segment " ++ seg)
      | some i =>
        if i < 0 ∨ (node.length : Int) ≤ i then
          .error ("array index out of bounds at segment " ++ seg)
        else
          match ensureParentGo (node.getD i.toNat .null) (next :: rest) with
          | .error e => .error e
          | .ok c => .ok (.arr (node.set i.toNat c))
    | _ => .error ("cannot traverse segment " ++ seg)
termination_by cur segs => (segs.length, 1)

/-- The auto-creation arm of `ensureParentExists`: create the container the
following segment calls for, refuse a specific numeric index, then continue
the traversal inside the created container. -/
def ensureParentCreate (node : Obj) (seg next : String) (rest : List String) :
    Except String Val :=
  if next = "-" then
    match ensureParentGo (.arr []) (next :: rest) with
    | .error e => .error e
    | .ok c => .ok (.obj (setField node seg c))
  else if (Atoi next).isSome then
    .error ("array index " ++ next ++ " out of bounds at segment " ++ seg)
  else
    match ensureParentGo (.obj []) (next :: rest) with
    | .error e => .error e
    | .ok c => .ok (.obj (setField node seg c))
termination_by (rest.length + 2, 0)

end

/-- Embeds `ensureParentExists`: create intermediate containers along the
(parent segments of the) pointer of an `add` operation. -/
def ensureParentExists (root : Obj) (pointer : String) : Except String Obj :=
  match splitPointer pointer with
  | [] => .ok root
  | segments =>
    match ensureParentGo (.obj root) segments with
    | .error e => .error e
    | .ok (.obj fields) => .ok fields
    | .ok _ => .error "internal: root is no longer a mapping"

/-- Embeds `cloneValue` (deep copy via `deepCopyMap` / `deepCopySlice`,
which coincide with the context builder's `deepCopyFields` /
`deepCopyList`). -/
def cloneValue : Val → Val
  | .obj m => .obj (deepCopyFields m)
  | .arr s => .arr (deepCopyList s)
  | v => v

/-- Embeds `mergeShallowInto`: overlay the overlay's keys onto the target,
cloning each value. -/
def mergeShallowInto (target : Obj) : Obj → Obj
  | [] => target
  | (k, v) :: rest => mergeShallowInto (setField target k (cloneValue v)) rest

/-- The `switch` of `mergeShallowAtPointer` once the parent container is
reached: a missing, nil or non-mapping entry at `last` becomes a deep copy
of the value; a mapping entry is shallow-merged in place. -/
def msApplyAt (parent : Val) (last : String) (value : Obj) : Except String Val :=
  match parent with
  | .obj container =>
    match lookupField container last with
    | none => .ok (.obj (setField container last (.obj (deepCopyFields value))))
    | some existing =>
      match existing with
      | .null => .ok (.obj (setField container last (.obj (deepCopyFields value))))
      | .obj targetMap =>
        .ok (.obj (setField container last (.obj (mergeShallowInto targetMap value))))
      | _ => .ok (.obj (setField container last (.obj (deepCopyFields value))))
  | .arr container =>
    if last = "-" then
      .error "mergeShallow operation cannot target append position"
    else
      match Atoi last with
      | none => .error ("invalid array index for mergeShallow: " ++ last)
      | some i =>
        if i < 0 ∨ (container.length : Int) ≤ i then
          .error "array index out of bounds for mergeShallow"
        else
          match container.getD i.toNat .null with
          | .null => .ok (.arr (container.set i.toNat (.obj (deepCopyFields value))))
          | .obj targetMap =>
            .ok (.arr (container.set i.toNat (.obj (mergeShallowInto targetMap value))))
          | _ => .ok (.arr (container.set i.toNat (.obj (deepCopyFields value))))
  | _ => .error "mergeShallow parent must be object or array"

mutual

/-- The `navigateToParent` traversal (with `create` true) fused with the
write-back of functional updates: traverse all but the last segment,
auto-creating missing containers per `determineNextContainerType`, then
apply the merge at the parent. -/
def navMerge (value : Obj) (last : String) : Val → List String → Except String Val
  | cur, [] => msApplyAt cur last value
  | cur, seg :: restParents =>
    match cur with
    | .obj node =>
      match lookupField node seg with
      | some child =>
        if child = .null then
          navMergeCreate value last node seg restParents
        else
          match navMerge value last child restParents with
          | .error e => .error e
          | .ok c => .ok (.obj (setField node seg c))
      | none => navMergeCreate value last node seg restParents
    | .arr node =>
      match Atoi seg with
      | none => .error ("expected array index at segment " ++ seg)
      | some i =>
        if i < 0 ∨ (node.length : Int) ≤ i then
          .error ("array index out of bounds at segment " ++ seg)
        else
          match navMerge value last (node.getD i.toNat .null) restParents with
          | .error e => .error e
          | .ok c => .ok (.arr (node.set i.toNat c))
    | _ => .error ("cannot traverse segment " ++ seg)
termination_by cur parents => (parents.length, 1)

/-- Auto-creation arm of `navigateToParent`: the created container type
comes from `determineNextContainerType` on the remaining parent segments. -/
def navMergeCreate (value : Obj) (last : String) (node : Obj) (seg : String)
    (restParents : List String) : Except String Val :=
  match navMerge value last (determineNextContainerType (seg :: restParents) 0 last)
      restParents with
  | .error e => .error e
  | .ok c => .ok (.obj (setField node seg c))
termination_by (restParents.length + 1, 0)

end

/-- Result of an in-place mutation of a root mapping. -/
def toObjResult : Except String Val → Except String Obj
  | .error e => .error e
  | .ok (.obj fields) => .ok fields
  | .ok _ => .error "internal: root is no longer a mapping"

/-- Embeds `mergeShallowAtPointer`: navigate to the parent of the pointer
(auto-creating) and merge there; the empty pointer yields the root as
parent with an empty final segment. -/
def mergeShallowAtPointer (root : Obj) (pointer : String) (value : Obj) :
    Except String Obj :=
  match splitPointer pointer with
  | [] => toObjResult (msApplyAt (.obj root) "" value)
  | segments =>
    toObjResult (navMerge value (segments.getLastD "") (.obj root) segments.dropLast)

/-- The per-pointer loop of `applyMergeShallow`. -/
def msLoop (value : Obj) : List String → Obj → Except String Obj
  | [], target => .ok target
  | ptr :: rest, target =>
    match mergeShallowAtPointer target ptr value with
    | .error e => .error e
    | .ok t2 => msLoop value rest t2

/-- Embeds `applyMergeShallow`: the rendered value must be an object;
expansion yielding no pointers is a no-op; otherwise merge at every
resolved pointer. -/
def applyMergeShallow (target : Obj) (rawPath : String) (value : Val) :
    Except String Obj :=
  match value with
  | .obj valueMap =>
    match expandPaths target rawPath with
    | .error e => .error e
    | .ok resolved =>
      if resolved = [] then .ok target
      else msLoop valueMap resolved target
  | _ => .error "mergeShallow value must be an object"

/-- The per-pointer loop of `applyRFC6902` (`add` ensures parents first). -/
def rfcLoop (op : String) (value : Val) : List String → Obj → Except String Obj
  | [], target => .ok target
  | ptr :: rest, target =>
    let step : Except String Obj :=
      if op = "add" then
        match ensureParentExists target ptr with
        | .error e => .error e
        | .ok t2 => applyJSONPatch t2 op ptr value
      else applyJSONPatch target op ptr value
    match step with
    | .error e => .error e
    | .ok t2 => rfcLoop op value rest t2

/-- Embeds `applyRFC6902`: expand the path; zero resolved locations is a
no-op; otherwise apply the operation at every resolved pointer. -/
def applyRFC6902 (target : Obj) (op rawPath : String) (value : Val) :
    Except String Obj :=
  match expandPaths target rawPath with
  | .error e => .error e
  | .ok resolved =>
    if resolved = [] then .ok target
    else rfcLoop op value resolved target

/-- Embeds `RenderFunc`: evaluates CEL expressions inside a value against
the context inputs (pure in the embedding). -/
abbrev RenderFunc := Val → Ctx → Except String Val

/-- Embeds `MissingDataChecker` (a nil-able Go function value). -/
abbrev MissingDataChecker := Option (String → Bool)

/-- Embeds the `JSONPatchOperation` wire struct. -/
structure JSONPatchOperation where
  op : String
  path : String
  value : Val

/-- Embeds the `TargetSpec` wire struct (`whereExpr` is the `Where` field). -/
structure TargetSpec where
  kind : String
  group : String
  version : String
  name : String
  whereExpr : String

/-- Embeds the `PatchSpec` wire struct (`varName` is the `Var` field). -/
structure PatchSpec where
  forEach : String
  varName : String
  target : TargetSpec
  operations : List JSONPatchOperation

/-- The `opRemove` constant. -/
def opRemove : String := "remove"

/-- ASCII `strings.ToLower` (operation names are ASCII). -/
def asciiToLower (s : String) : String :=
  String.mk (s.data.map fun c =>
    if 'A' ≤ c ∧ c ≤ 'Z' then Char.ofNat (c.toNat + 32) else c)

/-- Embeds `ApplyOperation`: render the path (it must produce a string),
render the value unless the operation is `remove`, then route: the six
RFC 6902 names to `applyRFC6902`, `mergeshallow` to `applyMergeShallow`,
anything else is an unknown-operation error. -/
def ApplyOperation (target : Obj) (operation : JSONPatchOperation) (inputs : Ctx)
    (render : RenderFunc) : Except String Obj :=
  match render (.str operation.path) inputs with
  | .error e => .error ("failed to evaluate patch path: " ++ e)
  | .ok (.str pathStr) =>
    match (if operation.op = opRemove then .ok .null else render operation.value inputs :
        Except String Val) with
    | .error e => .error ("failed to evaluate patch value: " ++ e)
    | .ok value =>
      let op := asciiToLower operation.op
      if op = "add" ∨ op = "replace" ∨ op = opRemove ∨ op = "test" ∨ op = "move"
          ∨ op = "copy" then
        applyRFC6902 target op pathStr value
      else if op = "mergeshallow" then
        applyMergeShallow target pathStr value
      else .error ("unknown patch operation: " ++ operation.op)
  | .ok _ => .error "patch path must evaluate to a string"

/-! ### Patch engine: ApplySpec (claims C3, C6)

The Go code mutates the shared `inputs` map and the targeted resource maps
in place; the embedding threads both explicitly. `ApplySpec` returns the
final context alongside the result so that restoration on every exit path
is a provable statement. Targets are indices into the resource list,
modelling the Go slice of shared map references. -/

/-- Embeds `Matcher` (accepted and ignored by `FindTargetResources`). -/
abbrev Matcher := Obj → String → Bool

/-- Embeds `splitAPIVersion`: `"apps/v1"` gives `("apps", "v1")`, a
slash-free version is the core group `("", v)`. -/
def splitAPIVersion (apiVersion : String) : String × String :=
  if apiVersion = "" then ("", "")
  else if apiVersion.data.contains '/' then
    (String.mk (apiVersion.data.takeWhile fun c => c ≠ '/'),
      String.mk ((apiVersion.data.dropWhile fun c => c ≠ '/').drop 1))
  else ("", apiVersion)

/-- The per-resource matching of `FindTargetResources`: empty target fields
match anything; `kind`, the split `apiVersion`, and `metadata.name` must
otherwise agree. -/
def targetMatches (target : TargetSpec) (resource : Obj) : Bool :=
  (if target.kind = "" then true
    else
      match lookupField resource "kind" with
      | some (.str k) => k == target.kind
      | _ => false)
  && (let gv :=
        match lookupField resource "apiVersion" with
        | some (.str g) => splitAPIVersion g
        | _ => ("", "")
      (if target.group = "" then true else gv.1 == target.group)
        && (if target.version = "" then true else gv.2 == target.version))
  && (if target.name = "" then true
    else
      match lookupField resource "metadata" with
      | some (.obj metadata) =>
        match lookupField metadata "name" with
        | some (.str n) => n == target.name
        | _ => false
      | _ => false)

/-- Embeds `FindTargetResources`: the indices (in order) of the resources
matching the target spec; the Go function shares map references with the
caller's slice, which indices model. The `selector` parameter exists and is
unused, as in the source. -/
def FindTargetResources (resources : List Obj) (target : TargetSpec)
    (_selector : Matcher) : List Nat :=
  (List.range resources.length).filter fun i => targetMatches target (resources.getD i [])

/-- Embeds the `matchTarget` closure of `ApplySpec`: with a `where`
expression, bind the candidate as `resource`, evaluate, restore the
binding, then decide — a missing-data error is a non-match, any other error
or a non-boolean result fails. Returns the decision together with the
restored context. -/
def matchTarget (render : RenderFunc) (isMissingData : MissingDataChecker)
    (whereExpr : String) (target : Obj) (baseInputs : Ctx) :
    Except String Bool × Ctx :=
  if whereExpr = "" then (.ok true, baseInputs)
  else
    let previous := lookupField baseInputs "resource"
    let bound := setField baseInputs "resource" (.obj target)
    let restored := restoreBinding bound "resource" previous
    match render (.str whereExpr) bound with
    | .error e =>
      match isMissingData with
      | some check =>
        if check e then (.ok false, restored)
        else (.error ("failed to evaluate target.where: " ++ e), restored)
      | none => (.error ("failed to evaluate target.where: " ++ e), restored)
    | .ok (.bool b) => (.ok b, restored)
    | .ok _ => (.error "target.where must evaluate to a boolean", restored)

/-- The operation loop of the `executeOperations` closure: `resource` is
bound to the current state of the target for each operation (Go binds one
shared reference whose contents evolve), and the saved binding is restored
on the error exit and after the loop. -/
def opsGo (render : RenderFunc) (previous : Option Val) (ctxOrig : Ctx) :
    List JSONPatchOperation → Obj → Except String Obj × Ctx
  | [], cur =>
    (.ok cur, restoreBinding (setField ctxOrig "resource" (.obj cur)) "resource" previous)
  | op :: rest, cur =>
    match ApplyOperation cur op (setField ctxOrig "resource" (.obj cur)) render with
    | .error e =>
      (.error e, restoreBinding (setField ctxOrig "resource" (.obj cur)) "resource" previous)
    | .ok cur2 => opsGo render previous ctxOrig rest cur2

/-- Embeds the `executeOperations` closure of `ApplySpec`. -/
def executeOperations (render : RenderFunc) (ops : List JSONPatchOperation)
    (target : Obj) (inputs : Ctx) : Except String Obj × Ctx :=
  opsGo render (lookupField inputs "resource") inputs ops target

/-- The per-target loop shared by both branches of `ApplySpec`: match each
target (index), run the operations on matches, store the mutated resource
back at its index. -/
def targetLoop (render : RenderFunc) (chk : MissingDataChecker) (whereExpr : String)
    (ops : List JSONPatchOperation) :
    List Nat → List Obj → Ctx → Except String (List Obj) × Ctx
  | [], resources, ctx => (.ok resources, ctx)
  | i :: rest, resources, ctx =>
    match matchTarget render chk whereExpr (resources.getD i []) ctx with
    | (.error e, ctx2) => (.error e, ctx2)
    | (.ok false, ctx2) => targetLoop render chk whereExpr ops rest resources ctx2
    | (.ok true, ctx2) =>
      match executeOperations render ops (resources.getD i []) ctx2 with
      | (.error e, ctx3) => (.error e, ctx3)
      | (.ok target2, ctx3) =>
        targetLoop render chk whereExpr ops rest (resources.set i target2) ctx3

/-- The `forEach` branch of `ApplySpec`: bind each item to the variable,
run the target loop, restore the variable binding on the error exit and
after the last item. -/
def forEachLoop (render : RenderFunc) (chk : MissingDataChecker) (whereExpr : String)
    (ops : List JSONPatchOperation) (targets : List Nat) (varName : String)
    (previous : Option Val) :
    List Val → List Obj → Ctx → Except String (List Obj) × Ctx
  | [], resources, cur => (.ok resources, restoreBinding cur varName previous)
  | item :: restItems, resources, cur =>
    match targetLoop render chk whereExpr ops targets resources
        (setField cur varName item) with
    | (.error e, c3) => (.error e, restoreBinding c3 varName previous)
    | (.ok res2, c3) =>
      forEachLoop render chk whereExpr ops targets varName previous restItems res2 c3

/-- Embeds `ApplySpec`: find targets, return immediately with no
operations; with `forEach`, evaluate it to a list (anything else is an
error) and run the target loop once per item under the item binding;
without `forEach`, run the target loop once. -/
def ApplySpec (resources : List Obj) (spec : PatchSpec) (inputs : Ctx)
    (matcher : Matcher) (render : RenderFunc) (isMissingData : MissingDataChecker) :
    Except String (List Obj) × Ctx :=
  let targets := FindTargetResources resources spec.target matcher
  if spec.operations.isEmpty then (.ok resources, inputs)
  else if spec.forEach ≠ "" then
    match render (.str spec.forEach) inputs with
    | .error e => (.error ("failed to evaluate patch forEach expression: " ++ e), inputs)
    | .ok (.arr items) =>
      let varName := if spec.varName = "" then "item" else spec.varName
      forEachLoop render isMissingData spec.target.whereExpr spec.operations targets
        varName (lookupField inputs varName) items resources inputs
    | .ok _ => (.error "forEach expression must evaluate to an array", inputs)
  else
    targetLoop render isMissingData spec.target.whereExpr spec.operations targets
      resources inputs

/-! ### Claims C3 and C6: context restoration and where-evaluation policy -/

theorem matchTarget_ctx (render : RenderFunc) (chk : MissingDataChecker)
    (whereExpr : String) (target : Obj) (ctx : Ctx) :
    (matchTarget render chk whereExpr target ctx).2 = ctx := by
  unfold matchTarget
  by_cases hw : whereExpr = ""
  · simp [hw]
  · simp only [hw, if_false]
    cases hr : render (.str whereExpr) (setField ctx "resource" (.obj target)) with
    | error e =>
      cases chk with
      | none => simp [hr, restoreBinding_setField]
      | some check =>
        by_cases hc : check e <;> simp [hr, hc, restoreBinding_setField]
    | ok v => cases v <;> simp [hr, restoreBinding_setField]

theorem opsGo_ctx (render : RenderFunc) (ctx : Ctx) :
    ∀ (ops : List JSONPatchOperation) (cur : Obj),
      (opsGo render (lookupField ctx "resource") ctx ops cur).2 = ctx := by
  intro ops
  induction ops with
  | nil => intro cur; simp [opsGo, restoreBinding_setField]
  | cons op rest ih =>
    intro cur
    simp only [opsGo]
    cases ApplyOperation cur op (setField ctx "resource" (.obj cur)) render with
    | error e => simp [restoreBinding_setField]
    | ok cur2 => simpa using ih cur2

theorem executeOperations_ctx (render : RenderFunc) (ops : List JSONPatchOperation)
    (target : Obj) (ctx : Ctx) :
    (executeOperations render ops target ctx).2 = ctx :=
  opsGo_ctx render ctx ops target

theorem targetLoop_ctx (render : RenderFunc) (chk : MissingDataChecker)
    (whereExpr : String) (ops : List JSONPatchOperation) :
    ∀ (targets : List Nat) (resources : List Obj) (ctx : Ctx),
      (targetLoop render chk whereExpr ops targets resources ctx).2 = ctx := by
  intro targets
  induction targets with
  | nil => intro resources ctx; simp [targetLoop]
  | cons i rest ih =>
    intro resources ctx
    simp only [targetLoop]
    split
    · rename_i e ctx2 heq
      have h := matchTarget_ctx render chk whereExpr (resources.getD i []) ctx
      rw [heq] at h
      exact h
    · rename_i ctx2 heq
      have h := matchTarget_ctx render chk whereExpr (resources.getD i []) ctx
      rw [heq] at h
      have h2 : ctx2 = ctx := h
      subst h2
      exact ih resources _
    · rename_i ctx2 heq
      have h := matchTarget_ctx render chk whereExpr (resources.getD i []) ctx
      rw [heq] at h
      have h2 : ctx2 = ctx := h
      subst h2
      split
      · rename_i e2 ctx3 heq2
        have h3 := executeOperations_ctx render ops (resources.getD i []) ctx2
        rw [heq2] at h3
        exact h3
      · rename_i target2 ctx3 heq2
        have h3 := executeOperations_ctx render ops (resources.getD i []) ctx2
        rw [heq2] at h3
        have h4 : ctx3 = ctx2 := h3
        subst h4
        exact ih (resources.set i target2) _

theorem forEachLoop_ctx (render : RenderFunc) (chk : MissingDataChecker)
    (whereExpr : String) (ops : List JSONPatchOperation) (targets : List Nat)
    (varName : String) (previous : Option Val) :
    ∀ (items : List Val) (resources : List Obj) (cur ctx0 : Ctx),
      restoreBinding cur varName previous = ctx0 →
      (forEachLoop render chk whereExpr ops targets varName previous
        items resources cur).2 = ctx0 := by
  intro items
  induction items with
  | nil =>
    intro resources cur ctx0 hinv
    simpa [forEachLoop] using hinv
  | cons item restItems ih =>
    intro resources cur ctx0 hinv
    have hinv2 : restoreBinding (setField cur varName item) varName previous = ctx0 := by
      rw [restoreBinding_setField_collapse]
      exact hinv
    simp only [forEachLoop]
    cases htl : targetLoop render chk whereExpr ops targets resources
        (setField cur varName item) with
    | mk fst c3 =>
      have h3 : c3 = setField cur varName item := by
        have := targetLoop_ctx render chk whereExpr ops targets resources
          (setField cur varName item)
        rw [htl] at this
        exact this
      cases fst with
      | error e =>
        simp only []
        rw [h3]
        exact hinv2
      | ok res2 => exact ih res2 c3 ctx0 (h3 ▸ hinv2)

/-- C3: `ApplySpec` leaves the caller's context mapping structurally
unchanged on every exit path — success, a failed `where` evaluation, and a
failed operation alike: the `forEach` variable and `resource` bindings
present before the call are restored, added ones removed. -/
theorem claimC3 (resources : List Obj) (spec : PatchSpec) (inputs : Ctx)
    (matcher : Matcher) (render : RenderFunc) (isMissingData : MissingDataChecker) :
    (ApplySpec resources spec inputs matcher render isMissingData).2 = inputs := by
  unfold ApplySpec
  by_cases hops : spec.operations.isEmpty
  · simp [hops]
  · rw [if_neg (by simp [hops])]
    by_cases hfe : spec.forEach = ""
    · rw [if_neg (by simp [hfe])]
      exact targetLoop_ctx _ _ _ _ _ resources inputs
    · rw [if_pos hfe]
      cases hr : render (.str spec.forEach) inputs with
      | error e => rfl
      | ok v =>
        cases v with
        | arr items =>
          exact forEachLoop_ctx _ _ _ _ _ _ _ items resources inputs inputs
            (restoreBinding_self inputs _)
        | null => rfl
        | bool b => rfl
        | int n => rfl
        | str s => rfl
        | obj o => rfl

/-- C6: with a `where` expression, `matchTarget` evaluates it with the
candidate bound as `resource` (and restores the binding): an error the
missing-data checker accepts is a skip (`ok false`); an error it rejects
fails the spec; a non-boolean result fails the spec; a boolean result is
the match decision. -/
theorem claimC6 (render : RenderFunc) (check : String → Bool) (whereExpr : String)
    (target : Obj) (ctx : Ctx) (hw : whereExpr ≠ "") :
    (∀ e, render (.str whereExpr) (setField ctx "resource" (.obj target)) = .error e →
      check e = true →
      matchTarget render (some check) whereExpr target ctx = (.ok false, ctx))
    ∧ (∀ e, render (.str whereExpr) (setField ctx "resource" (.obj target)) = .error e →
      check e = false →
      matchTarget render (some check) whereExpr target ctx
        = (.error ("failed to evaluate target.where: " ++ e), ctx))
    ∧ (∀ v, render (.str whereExpr) (setField ctx "resource" (.obj target)) = .ok v →
      (∀ b, v ≠ .bool b) →
      matchTarget render (some check) whereExpr target ctx
        = (.error "target.where must evaluate to a boolean", ctx))
    ∧ (∀ b, render (.str whereExpr) (setField ctx "resource" (.obj target))
        = .ok (.bool b) →
      matchTarget render (some check) whereExpr target ctx = (.ok b, ctx)) := by
  refine ⟨?skips, ?fails, ?nonbool, ?decides⟩
  case skips =>
    intro e hr hc
    unfold matchTarget
    simp [hw, hr, hc, restoreBinding_setField]
  case fails =>
    intro e hr hc
    unfold matchTarget
    simp [hw, hr, hc, restoreBinding_setField]
  case nonbool =>
    intro v hr hnb
    unfold matchTarget
    cases v with
    | bool b => exact absurd rfl (hnb b)
    | null => simp [hw, hr, restoreBinding_setField]
    | int n => simp [hw, hr, restoreBinding_setField]
    | str s => simp [hw, hr, restoreBinding_setField]
    | arr xs => simp [hw, hr, restoreBinding_setField]
    | obj fs => simp [hw, hr, restoreBinding_setField]
  case decides =>
    intro b hr
    unfold matchTarget
    simp [hw, hr, restoreBinding_setField]

/-- Witness for C6: a render function that always fails with an error the
checker accepts makes the target a non-match without failing the spec. -/
theorem claimC6_witness :
    matchTarget (fun _ _ => .error "missing data") (some fun _ => true) "w" [] []
      = (.ok false, []) :=
  (claimC6 (fun _ _ => .error "missing data") (fun _ => true) "w" [] []
    (by decide)).1 "missing data" rfl rfl

/-! ### Claim C4: zero pointers after expansion -/

/-- C4 (amended): for any operation routed through `applyRFC6902` (add,
replace, remove, test, move, copy), an expansion yielding zero pointers is
a success leaving the target unchanged; `applyMergeShallow` behaves the
same provided its rendered value is a mapping — with a non-mapping value it
fails before expansion is consulted. -/
theorem claimC4 :
    (∀ (target : Obj) (op rawPath : String) (value : Val),
      expandPaths target rawPath = .ok [] →
      applyRFC6902 target op rawPath value = .ok target)
    ∧ (∀ (target : Obj) (rawPath : String) (valueMap : Obj),
      expandPaths target rawPath = .ok [] →
      applyMergeShallow target rawPath (.obj valueMap) = .ok target) := by
  constructor
  · intro target op rawPath value h
    simp [applyRFC6902, h]
  · intro target rawPath valueMap h
    simp [applyMergeShallow, h]

/-- Counterexample to C4 as stated: with a filter matching nothing the
expansion yields zero pointers, yet `mergeShallow` with a non-mapping value
fails (the value check precedes expansion), so not every operation with
zero expanded pointers succeeds. -/
theorem claimC4_counterexample :
    expandPaths [("a", Val.arr [])] "a[?(@.x==\"1\")]" = .ok []
    ∧ applyMergeShallow [("a", Val.arr [])] "a[?(@.x==\"1\")]" (.str "s")
      = .error "mergeShallow value must be an object" :=
  ⟨rfl, rfl⟩

/-- Witness for the amended C4: an `add` and a (mapping-valued)
`mergeShallow` through a filter matching nothing both return the target
unchanged. -/
theorem claimC4_witness :
    applyRFC6902 [("a", Val.arr [])] "add" "a[?(@.x==\"1\")]/env/-" (.int 1)
      = .ok [("a", Val.arr [])]
    ∧ applyMergeShallow [("a", Val.arr [])] "a[?(@.x==\"1\")]" (.obj [("k", .int 1)])
      = .ok [("a", Val.arr [])] :=
  ⟨claimC4.1 [("a", Val.arr [])] "add" "a[?(@.x==\"1\")]/env/-" (.int 1) rfl,
    claimC4.2 [("a", Val.arr [])] "a[?(@.x==\"1\")]" [("k", .int 1)] rfl⟩

/-! ### Claim C5: auto-creation of missing intermediates on `add` paths -/

/-- C5: on an `add` path, `ensureParentExists` auto-creates a missing (or
nil) intermediate as an empty sequence when the following segment is the
append marker `-`, refuses a specific numeric index with an error, and
creates an empty mapping for a key segment; `determineNextContainerType`
(the mergeShallow navigation's creation rule) picks an empty sequence for
`-` or a numeric following segment and an empty mapping otherwise. -/
theorem claimC5 :
    (∀ (root : Obj) (pointer seg : String),
      splitPointer pointer = [seg, "-"] → lookupField root seg = none →
      ensureParentExists root pointer = .ok (setField root seg (.arr [])))
    ∧ (∀ (root : Obj) (pointer seg next : String),
      splitPointer pointer = [seg, next] → lookupField root seg = none →
      (Atoi next).isSome = true →
      ensureParentExists root pointer
        = .error ("array index " ++ next ++ " out of bounds at segment " ++ seg))
    ∧ (∀ (root : Obj) (pointer seg next : String),
      splitPointer pointer = [seg, next] → lookupField root seg = none →
      next ≠ "-" → Atoi next = none →
      ensureParentExists root pointer = .ok (setField root seg (.obj [])))
    ∧ (∀ (segments : List String) (index : Nat) (last : String),
      (segments.getD (index + 1) last = "-" →
        determineNextContainerType segments index last = .arr [])
      ∧ ((Atoi (segments.getD (index + 1) last)).isSome = true →
        determineNextContainerType segments index last = .arr [])
      ∧ (segments.getD (index + 1) last ≠ "-" →
        Atoi (segments.getD (index + 1) last) = none →
        determineNextContainerType segments index last = .obj [])) := by
  refine ⟨?dash, ?numeric, ?key, ?dnct⟩
  case dash =>
    intro root pointer seg hsplit hmiss
    have hAtoiDash : Atoi "-" = none := rfl
    simp [ensureParentExists, hsplit, ensureParentGo, ensureParentCreate, hmiss]
  case numeric =>
    intro root pointer seg next hsplit hmiss hnum
    have hne : next ≠ "-" := by
      intro hEq
      rw [hEq] at hnum
      simp [Atoi, parseDigits] at hnum
    simp [ensureParentExists, hsplit, ensureParentGo, ensureParentCreate, hmiss, hne, hnum]
  case key =>
    intro root pointer seg next hsplit hmiss hne hnum
    simp [ensureParentExists, hsplit, ensureParentGo, ensureParentCreate, hmiss, hne, hnum]
  case dnct =>
    intro segments index last
    refine ⟨?_, ?_, ?_⟩
    · intro hd
      simp only [List.getD, List.get?_eq_getElem?] at hd
      simp [determineNextContainerType, hd]
    · intro hnum
      by_cases hd : segments.getD (index + 1) last = "-"
      · rw [hd] at hnum
        simp [Atoi, parseDigits] at hnum
      · simp only [List.getD, List.get?_eq_getElem?] at hd hnum
        simp [determineNextContainerType, hd, hnum]
    · intro hd hnum
      simp only [List.getD, List.get?_eq_getElem?] at hd hnum
      simp [determineNextContainerType, hd, hnum]

/-- Witness for C5 at concrete pointers into an empty mapping: the pointer
`a` followed by the append marker creates an empty sequence at `a`, the
pointer `/a/0` is refused, and `/a/b` creates an empty mapping at `a`. -/
theorem claimC5_witness :
    ensureParentExists [] "/a/-" = .ok [("a", Val.arr [])]
    ∧ ensureParentExists [] "/a/0"
      = .error ("array index " ++ "0" ++ " out of bounds at segment " ++ "a")
    ∧ ensureParentExists [] "/a/b" = .ok [("a", Val.obj [])] :=
  ⟨claimC5.1 [] "/a/-" "a" rfl rfl,
    claimC5.2.1 [] "/a/0" "a" "0" rfl rfl rfl,
    claimC5.2.2.1 [] "/a/b" "a" "b" rfl rfl (by decide) rfl⟩

/-! ### Claim C2: mergeShallow semantics (empty-path divergence) -/

/-- The resource of spec scenario 4 — `(a then (x then 1, y then 2), b then 3)`. -/
def c2Target : Obj := [("a", .obj [("x", .int 1), ("y", .int 2)]), ("b", .int 3)]

/-- C2, evaluated at the failing input (spec scenario 4: path `""`, value
`(a then (z then 3))`): the code resolves the empty path to the root
pointer but then looks the empty-string key up in the root mapping and, not
finding it, stores a copy of the value under the key `""` — instead of
overlaying the value's keys onto the root as the claim and spec scenario 4
require (`(a then (z then 3), b then 3)`). -/
theorem claimC2_eval :
    applyMergeShallow c2Target "" (.obj [("a", .obj [("z", .int 3)])])
      = .ok [("a", .obj [("x", .int 1), ("y", .int 2)]), ("b", .int 3),
          ("", .obj [("a", .obj [("z", .int 3)])])]
    ∧ applyMergeShallow c2Target "" (.obj [("a", .obj [("z", .int 3)])])
      ≠ .ok [("a", .obj [("z", .int 3)]), ("b", .int 3)] := by
  constructor
  · simp [applyMergeShallow, expandPaths, msLoop, mergeShallowAtPointer, splitPointer,
      msApplyAt, toObjResult, c2Target, lookupField, setField, deepCopyFields,
      deepCopyValue]
  · intro h
    rw [show applyMergeShallow c2Target "" (.obj [("a", .obj [("z", .int 3)])])
        = .ok [("a", .obj [("x", .int 1), ("y", .int 2)]), ("b", .int 3),
          ("", .obj [("a", .obj [("z", .int 3)])])] from by
      simp [applyMergeShallow, expandPaths, msLoop, mergeShallowAtPointer, splitPointer,
        msApplyAt, toObjResult, c2Target, lookupField, setField, deepCopyFields,
        deepCopyValue]] at h
    simp at h

/-! ### Claim C10: array-filter matching -/

/-- C10: for a filter expression the regular expression accepts, an element
whose field path is absent or crosses a non-mapping is a non-match without
an error; a nil final field matches exactly the empty literal; any other
final field is compared by its stringified form. -/
theorem claimC10 :
    ∀ (item : Val) (expr : String) (fieldPath expected : String),
      parseFilter (trimSpace expr.data) = some (fieldPath, expected) →
      (filterNavigate item (splitOnChar '.' fieldPath.data) = none →
        matchesFilter item expr = .ok false)
      ∧ (filterNavigate item (splitOnChar '.' fieldPath.data) = some .null →
        matchesFilter item expr = .ok (expected == ""))
      ∧ (∀ v, filterNavigate item (splitOnChar '.' fieldPath.data) = some v →
        v ≠ .null → matchesFilter item expr = .ok (goToString v == expected)) := by
  intro item expr fieldPath expected hp
  refine ⟨?absent, ?nilCase, ?stringified⟩
  case absent =>
    intro hnav
    simp [matchesFilter, hp, hnav]
  case nilCase =>
    intro hnav
    simp [matchesFilter, hp, hnav]
  case stringified =>
    intro v hnav hne
    cases v with
    | null => exact absurd rfl hne
    | bool b => simp [matchesFilter, hp, hnav]
    | int n => simp [matchesFilter, hp, hnav]
    | str s => simp [matchesFilter, hp, hnav]
    | arr xs => simp [matchesFilter, hp, hnav]
    | obj fs => simp [matchesFilter, hp, hnav]

/-- Witness for C10: against the filter body of `[?(@.spec.name=="app")]`,
an element carrying that field compares by stringified form, and an element
without a `spec` mapping is a non-match without an error. -/
theorem claimC10_witness :
    matchesFilter (.obj [("spec", .obj [("name", .str "app")])]) "@.spec.name==\"app\""
      = .ok (goToString (.str "app") == "app")
    ∧ matchesFilter (.obj [("other", .int 3)]) "@.spec.name==\"app\"" = .ok false :=
  ⟨(claimC10 (.obj [("spec", .obj [("name", .str "app")])]) "@.spec.name==\"app\""
      "spec.name" "app" rfl).2.2 (.str "app") rfl (by decide),
    (claimC10 (.obj [("other", .int 3)]) "@.spec.name==\"app\"" "spec.name" "app"
      rfl).1 rfl⟩

end Choreo
